import Mathlib

/-!
Verification of the acp-client multi-target observation core.

This file gives a shallow embedding, in Lean 4, of the parts of the
repository that the specification's testable properties talk about:

* the error classifier `TargetObservationExecutor._get_error_type`
  (src/app/lib/execution/target_observation_executor.py);
* the retrying executor `TargetObservationExecutor.execute_target` and its
  single-attempt body `_execute_target_attempt`, together with the
  stop-before-start behaviour of `ACPImagingManager.start_imaging_plan`
  (src/app/lib/core/acp_imaging_manager.py) and
  `MultiTargetOrchestrator.execute_target_observation`
  (src/scripts/lib/multi_target_orchestrator.py);
* the monitoring loop `monitor_target_observation`;
* the GUI target scheduler `TargetScheduler` (src/ACP/gui/scheduler.py)
  as a transition system, and its queue operation `add_target`;
* the persistence pair `ScheduledTarget.to_dict` / `from_dict`
  (src/ACP/models.py);
* the meridian-flip calculator `MeridianFlipManager`
  (src/scripts/lib/meridian_flip_manager.py).

Modelling conventions:

* Python strings are Lean `String`s; the case-insensitive substring tests
  are implemented directly on `List Char` (Python `str.lower` is modelled
  on the ASCII range, which covers every pattern the classifier uses;
  non-ASCII characters are left unchanged, as Python does for the CJK
  characters appearing in the log messages).
* Python `datetime` values are modelled in two granularities, matching
  the two ways the source uses them: the persistence layer reads the
  broken-down calendar fields (year .. microsecond), so there a datetime
  is a record of those fields; the meridian calculator only ever shifts
  and compares points in time and reads the calendar date, so there a
  datetime is a rational number of seconds since 0001-01-01 00:00:00,
  with the calendar fields recovered by the standard civil-from-days
  conversion.  Python float arithmetic is modelled over `ℚ`.
* Fallible Python code (try/except, strptime errors) returns `Option`.
* Remote side effects are modelled as event traces (`Ev` below); the
  stubs that a test would install for the HTTP client become explicit
  function parameters giving the outcome of each remote call.
-/

/-! ## Python string helpers -/

/-- ASCII lowering of one character, as Python `str.lower` acts on the
ASCII range (other characters are left unchanged). -/
def pyLowerChar (c : Char) : Char :=
  if 'A' ≤ c ∧ c ≤ 'Z' then Char.ofNat (c.toNat + 32) else c

/-- Python `str.lower`, restricted to ASCII case folding. -/
def py_lower (s : String) : String :=
  String.mk (s.data.map pyLowerChar)

/-- Does `needle` occur at the very front of `hay`? -/
def matchesAt : List Char → List Char → Bool
  | [], _ => true
  | _ :: _, [] => false
  | a :: as, b :: bs => a == b && matchesAt as bs

/-- Substring occurrence on character lists. -/
def occursIn (needle : List Char) : List Char → Bool
  | [] => matchesAt needle []
  | c :: cs => matchesAt needle (c :: cs) || occursIn needle cs

/-- Python's `needle in hay` substring test. -/
def containsSub (hay needle : String) : Bool :=
  occursIn needle.data hay.data

/-! ## The error classifier

Faithful translation of `TargetObservationExecutor._get_error_type`
(target_observation_executor.py lines 218-251): lowercase the message,
then run a fixed chain of substring tests, first match wins, falling
through to `"unknown_error"`. -/

def get_error_type (error : String) : String :=
  let e := py_lower error
  if containsSub e "401" || containsSub e "access denied" || containsSub e "invalid login" then
    "authentication_failed"
  else if containsSub e "connection" && containsSub e "timeout" then
    "connection_timeout"
  else if containsSub e "acp" && containsSub e "server" then
    "acp_server_error"
  else if containsSub e "observatory" && containsSub e "offline" then
    "observatory_offline"
  else if containsSub e "meridian" && containsSub e "flip" then
    "meridian_flip_failed"
  else if containsSub e "observation" && containsSub e "timeout" then
    "observation_timeout"
  else if containsSub e "imaging" && containsSub e "plan" then
    "imaging_plan_failed"
  else if containsSub e "status" && containsSub e "check" then
    "status_check_failed"
  else if containsSub e "telescope" && (containsSub e "not responding" || containsSub e "error") then
    "telescope_error"
  else if containsSub e "camera" && (containsSub e "error" || containsSub e "not found") then
    "camera_error"
  else
    "unknown_error"

/-- Disjunction of every pattern the classifier knows; a message on which
this is `false` falls through every branch of `get_error_type`. -/
def matched_known (s : String) : Bool :=
  let e := py_lower s
  (containsSub e "401" || containsSub e "access denied" || containsSub e "invalid login") ||
  (containsSub e "connection" && containsSub e "timeout") ||
  (containsSub e "acp" && containsSub e "server") ||
  (containsSub e "observatory" && containsSub e "offline") ||
  (containsSub e "meridian" && containsSub e "flip") ||
  (containsSub e "observation" && containsSub e "timeout") ||
  (containsSub e "imaging" && containsSub e "plan") ||
  (containsSub e "status" && containsSub e "check") ||
  (containsSub e "telescope" && (containsSub e "not responding" || containsSub e "error")) ||
  (containsSub e "camera" && (containsSub e "error" || containsSub e "not found"))

/-! ## Remote-call event traces -/

/-- Remote side effects performed by the execution layer: a stop request
(`ACPConnectionManager.stop_current_operation` / `ACPManager.stop_script`,
both of which issue the stop and then wait 5 seconds), an imaging-plan
submission, and an inter-attempt retry sleep. -/
inductive Ev where
  | stopOp : Ev
  | submit : Ev
  | sleepFor : Nat → Ev
  deriving DecidableEq, BEq

def countSubmits (l : List Ev) : Nat := l.count Ev.submit

/-! ## The retrying executor

`TargetObservationExecutor.execute_target` (lines 76-126) wraps
`_execute_target_attempt` (lines 128-216) in a bounded retry loop.  The
attempt body creates a plan and calls
`ACPImagingManager.start_imaging_plan`, which first checks the
connection, then issues a stop of the current remote operation (with a
5-second grace wait) and only then submits the plan to the HTTP client.
`start_imaging_plan` returns the client's `(success, error_message)`
pair on the real path, but a bare `bool` on its early-exit paths
(not connected / dryrun / missing client / internal exception); in that
case the caller's tuple unpacking raises, which the attempt's
`except` clause turns into a failed attempt.  We model a bare-bool
return as `none`. -/

structure RetryConfig where
  enabled : Bool
  max_attempts : Nat
  retry_interval_seconds : Nat
  retry_on_errors : List String

/-- Message recorded in `_last_error` when plan submission fails
(line 201: `f"{target_name} 观测计划启动失败: {error_msg}"`). -/
def wrap_start_fail (name msg : String) : String :=
  name ++ " 观测计划启动失败: " ++ msg

/-- Outcome of the monitoring phase of one attempt. -/
inductive MonitorOutcome where
  | ok : MonitorOutcome
  | failed : String → MonitorOutcome

/-- `ACPImagingManager.start_imaging_plan` (acp_imaging_manager.py lines
57-115): emits its remote events and returns the client pair, or `none`
for the paths that return a bare bool. -/
def start_imaging_plan (connected dryrun : Bool) (clientRes : Bool × String) :
    List Ev × Option (Bool × String) :=
  if connected = false then ([], none)
  else if dryrun then ([Ev.stopOp], none)
  else ([Ev.stopOp, Ev.submit], some clientRes)

/-- Message of the `TypeError` raised when the attempt unpacks a bare
bool returned by `start_imaging_plan`. -/
def unpack_error_msg : String := "cannot unpack non-iterable bool object"

/-- One call of `_execute_target_attempt`: returns the emitted remote
events, the attempt's success flag, and the updated `_last_error`. -/
def execute_target_attempt (name : String) (connected dryrun : Bool)
    (clientRes : Bool × String) (monitorRes : MonitorOutcome) (lastError : Option String) :
    List Ev × Bool × Option String :=
  match start_imaging_plan connected dryrun clientRes with
  | (evs, none) => (evs, false, some unpack_error_msg)
  | (evs, some (true, _)) =>
      match monitorRes with
      | MonitorOutcome.ok => (evs, true, lastError)
      | MonitorOutcome.failed m => (evs, false, some m)
  | (evs, some (false, emsg)) => (evs, false, some (wrap_start_fail name emsg))

/-- The retry-eligibility check of `execute_target` (lines 117-122):
`if last_error and retry_on_errors:` then break when the classified kind
is not a member.  Returns `true` when the loop may continue. -/
def retry_eligible (cfg : RetryConfig) (lastError : Option String) : Bool :=
  match lastError with
  | none => true
  | some e =>
      if e ≠ "" ∧ cfg.retry_on_errors ≠ [] then
        decide (get_error_type e ∈ cfg.retry_on_errors)
      else true

/-- The attempt loop of `execute_target` (lines 98-123).  `fuel` is the
number of loop iterations left (`max_attempts - attempt + 1`), `attempt`
the 1-based attempt counter; attempts after the first are preceded by a
`retry_interval_seconds` sleep. -/
def execute_target_go (cfg : RetryConfig) (name : String) (connected dryrun : Bool)
    (clientRes : Nat → Bool × String) (monitorRes : Nat → MonitorOutcome) :
    Nat → Nat → Option String → List Ev × Bool × Option String
  | 0, _, le => ([], false, le)
  | fuel + 1, attempt, le =>
      let pre : List Ev := if 1 < attempt then [Ev.sleepFor cfg.retry_interval_seconds] else []
      let r := execute_target_attempt name connected dryrun
        (clientRes attempt) (monitorRes attempt) le
      if r.2.1 then (pre ++ r.1, true, r.2.2)
      else if cfg.enabled = false ∨ cfg.max_attempts ≤ attempt then (pre ++ r.1, false, r.2.2)
      else if retry_eligible cfg r.2.2 = false then (pre ++ r.1, false, r.2.2)
      else
        let rest := execute_target_go cfg name connected dryrun clientRes monitorRes
          fuel (attempt + 1) r.2.2
        (pre ++ r.1 ++ rest.1, rest.2.1, rest.2.2)

/-- `TargetObservationExecutor.execute_target`: run the loop for
`max_attempts` iterations starting at attempt 1 with no recorded error. -/
def execute_target (cfg : RetryConfig) (name : String) (connected dryrun : Bool)
    (clientRes : Nat → Bool × String) (monitorRes : Nat → MonitorOutcome) :
    List Ev × Bool × Option String :=
  execute_target_go cfg name connected dryrun clientRes monitorRes cfg.max_attempts 1 none

/-! ## Helper lemmas for the retry loop -/

lemma execute_target_attempt_fail (name : String) (b : Bool × String)
    (mr : MonitorOutcome) (le : Option String) (hb : b.1 = false) :
    execute_target_attempt name true false b mr le =
      ([Ev.stopOp, Ev.submit], false, some (wrap_start_fail name b.2)) := by
  have hb2 : b = (false, b.2) := by
    rw [← hb]
  rw [hb2]
  rfl

lemma wrap_start_fail_ne_empty (name msg : String) : wrap_start_fail name msg ≠ "" := by
  intro h
  have hlen : (wrap_start_fail name msg).length = 0 := by rw [h]; rfl
  rw [wrap_start_fail, String.length_append, String.length_append] at hlen
  have : 0 < (" 观测计划启动失败: " : String).length := by decide
  omega

lemma retry_eligible_of_all (cfg : RetryConfig) (e : String)
    (h : cfg.retry_on_errors = [] ∨ get_error_type e ∈ cfg.retry_on_errors) :
    retry_eligible cfg (some e) = true := by
  rw [retry_eligible]
  split
  · next hc =>
      rcases h with h | h
      · exact absurd h hc.2
      · exact decide_eq_true h
  · rfl

lemma countSubmits_flatten_replicate (iv k : Nat) :
    countSubmits (List.replicate k [Ev.sleepFor iv, Ev.stopOp, Ev.submit]).flatten = k := by
  induction k with
  | zero => rfl
  | succ n ih =>
      rw [List.replicate_succ, List.flatten_cons]
      rw [countSubmits, List.count_append] at *
      rw [ih]
      have h1 : List.count Ev.submit [Ev.sleepFor iv, Ev.stopOp, Ev.submit] = 1 := rfl
      omega

lemma execute_target_go_allfail
    (cfg : RetryConfig) (name : String) (clientRes : Nat → Bool × String)
    (monitorRes : Nat → MonitorOutcome)
    (hen : cfg.enabled = true)
    (hfail : ∀ i, (clientRes i).1 = false)
    (helig : cfg.retry_on_errors = [] ∨
      ∀ i, get_error_type (wrap_start_fail name (clientRes i).2) ∈ cfg.retry_on_errors) :
    ∀ fuel attempt le, 1 ≤ attempt → attempt + fuel = cfg.max_attempts + 1 → 1 ≤ fuel →
    (execute_target_go cfg name true false clientRes monitorRes fuel attempt le).1 =
      (if 1 < attempt then [Ev.sleepFor cfg.retry_interval_seconds] else []) ++
        ([Ev.stopOp, Ev.submit] ++
          (List.replicate (fuel - 1)
            [Ev.sleepFor cfg.retry_interval_seconds, Ev.stopOp, Ev.submit]).flatten) ∧
    (execute_target_go cfg name true false clientRes monitorRes fuel attempt le).2.1 = false := by
  intro fuel
  induction fuel with
  | zero => intro attempt le _ _ h; omega
  | succ f ih =>
      intro attempt le hatt hsum _
      rw [execute_target_go]
      rw [execute_target_attempt_fail name (clientRes attempt) (monitorRes attempt) le
        (hfail attempt)]
      simp only
      rcases Nat.eq_zero_or_pos f with hf | hf
      · subst hf
        have hmax : cfg.max_attempts ≤ attempt := by omega
        simp [hmax]
      · have hmax : ¬ (cfg.enabled = false ∨ cfg.max_attempts ≤ attempt) := by
          push_neg
          refine ⟨by rw [hen]; trivial, by omega⟩
        have helig1 : retry_eligible cfg (some (wrap_start_fail name (clientRes attempt).2)) =
            true := by
          apply retry_eligible_of_all
          rcases helig with h | h
          · exact Or.inl h
          · exact Or.inr (h attempt)
        simp only [if_neg hmax, helig1]
        obtain ⟨ih1, ih2⟩ := ih (attempt + 1) (some (wrap_start_fail name (clientRes attempt).2))
          (by omega) (by omega) hf
        simp only [if_neg (by simp : ¬ false = true), ih2, reduceIte]
        constructor
        · rw [ih1]
          have h1lt : 1 < attempt + 1 := by omega
          rw [if_pos h1lt]
          obtain ⟨f', rfl⟩ : ∃ f', f = f' + 1 := ⟨f - 1, by omega⟩
          simp only [Nat.add_sub_cancel, List.replicate_succ, List.flatten_cons]
          simp [List.append_assoc]
        · rfl

/-! ## Claim C1: retry bound -/

/-- C1.  Retry bound: with `enabled = true` and `max_attempts = N ≥ 1`,
if every submission attempt fails with a message whose classified kind is
in the configured retryable-error set (or that set is empty), then
`execute_target` performs exactly N submissions (one `start_imaging_plan`
submission per attempt), sleeps the configured retry interval before each
attempt after the first, and returns false.  The trace equation pins the
full order of remote events. -/
theorem C1_retry_bound (cfg : RetryConfig) (N : Nat) (name : String)
    (clientRes : Nat → Bool × String) (monitorRes : Nat → MonitorOutcome)
    (hen : cfg.enabled = true) (hN : cfg.max_attempts = N) (h1 : 1 ≤ N)
    (hfail : ∀ i, (clientRes i).1 = false)
    (helig : cfg.retry_on_errors = [] ∨
      ∀ i, get_error_type (wrap_start_fail name (clientRes i).2) ∈ cfg.retry_on_errors) :
    countSubmits (execute_target cfg name true false clientRes monitorRes).1 = N ∧
    (execute_target cfg name true false clientRes monitorRes).1 =
      [Ev.stopOp, Ev.submit] ++
        (List.replicate (N - 1)
          [Ev.sleepFor cfg.retry_interval_seconds, Ev.stopOp, Ev.submit]).flatten ∧
    (execute_target cfg name true false clientRes monitorRes).2.1 = false := by
  subst hN
  obtain ⟨htr, hsucc⟩ := execute_target_go_allfail cfg name clientRes monitorRes hen hfail helig
    cfg.max_attempts 1 none (by omega) (by omega) (by omega)
  rw [execute_target]
  rw [htr, hsucc]
  have hnot : ¬ (1 < 1) := by omega
  rw [if_neg hnot]
  refine ⟨?_, ⟨rfl, rfl⟩⟩
  rw [countSubmits, List.nil_append, List.count_append]
  rw [show List.count Ev.submit [Ev.stopOp, Ev.submit] = 1 from rfl]
  have := countSubmits_flatten_replicate cfg.retry_interval_seconds (cfg.max_attempts - 1)
  rw [countSubmits] at this
  omega

/-- Witness for C1 at a concrete configuration: 3 attempts, empty
retryable set, submission always failing. -/
theorem C1_retry_bound_witness :
    countSubmits (execute_target (RetryConfig.mk true 3 7 []) "T" true false
      (fun _ => (false, "boom")) (fun _ => MonitorOutcome.ok)).1 = 3 ∧
    (execute_target (RetryConfig.mk true 3 7 []) "T" true false
      (fun _ => (false, "boom")) (fun _ => MonitorOutcome.ok)).1 =
      [Ev.stopOp, Ev.submit] ++
        (List.replicate 2 [Ev.sleepFor 7, Ev.stopOp, Ev.submit]).flatten ∧
    (execute_target (RetryConfig.mk true 3 7 []) "T" true false
      (fun _ => (false, "boom")) (fun _ => MonitorOutcome.ok)).2.1 = false :=
  C1_retry_bound (RetryConfig.mk true 3 7 []) 3 "T"
    (fun _ => (false, "boom")) (fun _ => MonitorOutcome.ok)
    rfl rfl (by omega) (fun _ => rfl) (Or.inl rfl)

/-! ## Claim C5: the unknown-error retry whitelist -/

/-- C5 counterexample.  The claim says that when the configured
retryable-error set is empty, an `unknown_error`-classified failure stops
the retry loop after the first occurrence.  In the code the eligibility
check is skipped entirely for an empty set (`if last_error and
retry_on_errors:`), so with `max_attempts = 2` and an empty set the
executor submits twice, not once. -/
theorem C5_counterexample :
    get_error_type (wrap_start_fail "T" "xyz") = "unknown_error" ∧
    (RetryConfig.mk true 2 0 []).retry_on_errors = [] ∧
    countSubmits (execute_target (RetryConfig.mk true 2 0 []) "T" true false
      (fun _ => (false, "xyz")) (fun _ => MonitorOutcome.ok)).1 = 2 ∧
    (execute_target (RetryConfig.mk true 2 0 []) "T" true false
      (fun _ => (false, "xyz")) (fun _ => MonitorOutcome.ok)).2.1 = false := by
  refine ⟨by decide, rfl, ?_, ?_⟩ <;> decide

/-- C5 (amended).  If an attempt fails with a message classified as
`unknown_error` and the configured retryable-error set is non-empty and
does not contain `unknown_error`, then no further submission attempt is
made: the executor stops after the single submission of attempt 1 and
returns false.  (The original claim also covered the empty set, which the
code instead treats as "retry everything"; see `C5_counterexample`.) -/
theorem C5_unknown_error_whitelist (cfg : RetryConfig) (name : String)
    (clientRes : Nat → Bool × String) (monitorRes : Nat → MonitorOutcome)
    (h1 : 1 ≤ cfg.max_attempts)
    (hfail : (clientRes 1).1 = false)
    (hcls : get_error_type (wrap_start_fail name (clientRes 1).2) = "unknown_error")
    (hros : cfg.retry_on_errors ≠ [])
    (hnot : "unknown_error" ∉ cfg.retry_on_errors) :
    (execute_target cfg name true false clientRes monitorRes).1 = [Ev.stopOp, Ev.submit] ∧
    (execute_target cfg name true false clientRes monitorRes).2.1 = false := by
  rw [execute_target]
  obtain ⟨m, hm⟩ : ∃ m, cfg.max_attempts = m + 1 := ⟨cfg.max_attempts - 1, by omega⟩
  rw [hm, execute_target_go]
  rw [execute_target_attempt_fail name (clientRes 1) (monitorRes 1) none hfail]
  simp only
  have hpre : ¬ (1 < 1) := by omega
  rw [if_neg hpre]
  have hineq : retry_eligible cfg (some (wrap_start_fail name (clientRes 1).2)) = false := by
    rw [retry_eligible]
    rw [if_pos ⟨wrap_start_fail_ne_empty name (clientRes 1).2, hros⟩]
    rw [hcls]
    exact decide_eq_false hnot
  by_cases hbrk : cfg.enabled = false ∨ cfg.max_attempts ≤ 1
  · rw [if_neg (by simp : ¬ false = true), if_pos hbrk]
    exact ⟨rfl, rfl⟩
  · rw [if_neg (by simp : ¬ false = true), if_neg hbrk, hineq]
    exact ⟨rfl, rfl⟩

/-- Witness for the amended C5 at a concrete configuration. -/
theorem C5_unknown_error_whitelist_witness :
    (execute_target (RetryConfig.mk true 3 5 ["connection_timeout"]) "T" true false
      (fun _ => (false, "boom xyz")) (fun _ => MonitorOutcome.ok)).1 =
      [Ev.stopOp, Ev.submit] ∧
    (execute_target (RetryConfig.mk true 3 5 ["connection_timeout"]) "T" true false
      (fun _ => (false, "boom xyz")) (fun _ => MonitorOutcome.ok)).2.1 = false :=
  C5_unknown_error_whitelist (RetryConfig.mk true 3 5 ["connection_timeout"]) "T"
    (fun _ => (false, "boom xyz")) (fun _ => MonitorOutcome.ok)
    (by decide) rfl (by decide) (by decide) (by decide)

/-! ## Claim C6: classifier priority -/

/-- C6.  The classifier is a total function on strings doing
case-insensitive substring matching in a fixed priority order: any
message containing "401" (after lowering) classifies as
`authentication_failed` before the generic server checks can fire; the
spec's sample 401 message classifies as `authentication_failed` and not
`acp_server_error`; and a message matching none of the known patterns
classifies as `unknown_error`. -/
theorem C6_classifier_priority :
    (∀ s : String, containsSub (py_lower s) "401" = true →
        get_error_type s = "authentication_failed") ∧
    get_error_type "401 Client Error: Access Denied... for url .../ac/astopscript.asp" =
      "authentication_failed" ∧
    get_error_type "401 Client Error: Access Denied... for url .../ac/astopscript.asp" ≠
      "acp_server_error" ∧
    (∀ s : String, matched_known s = false → get_error_type s = "unknown_error") := by
  refine ⟨?_, by decide, by decide, ?_⟩
  · intro s h
    rw [get_error_type]
    simp only [h, Bool.true_or, if_pos]
  · intro s h
    rw [matched_known] at h
    simp only [Bool.or_eq_false_iff] at h
    obtain ⟨⟨⟨⟨⟨⟨⟨⟨⟨h1, h2⟩, h3⟩, h4⟩, h5⟩, h6⟩, h7⟩, h8⟩, h9⟩, h10⟩ := h
    rw [get_error_type]
    simp only [h1, h2, h3, h4, h5, h6, h7, h8, h9, h10, Bool.false_eq_true, if_false]
    decide

/-- Witness for C6: the universally quantified parts applied at concrete
messages. -/
theorem C6_classifier_priority_witness :
    get_error_type "x401y" = "authentication_failed" ∧
    get_error_type "hello" = "unknown_error" :=
  ⟨C6_classifier_priority.1 "x401y" (by decide),
   C6_classifier_priority.2.2.2 "hello" (by decide)⟩

/-! ## Claim C2: stop is attempted before every submission

Both execution paths are modelled as remote-event traces.  In
`MultiTargetOrchestrator.execute_target_observation` (lines 98-107) the
stop is explicit: `self.acp_manager.stop_script(wait_seconds=5)` runs
before the plan is built and submitted.  In
`TargetObservationExecutor._execute_target_attempt` the stop lives
inside `ACPImagingManager.start_imaging_plan`, which issues
`stop_current_operation(wait_seconds=5)` immediately before the
submission.  `ACPManager.stop_script` and `stop_current_operation` both
sleep `wait_seconds` (5) after issuing the stop, giving the bounded
grace wait. -/

/-- Trace of `MultiTargetOrchestrator.execute_target_observation`:
stop the current script (not in dryrun), build the plan (which can
raise, aborting before submission), then submit via
`ACPManager.start_imaging` (which contacts the client only outside
dryrun). -/
def execute_target_observation_trace (dryrun planOk : Bool) : List Ev :=
  let stopEvs : List Ev := if dryrun then [] else [Ev.stopOp]
  if planOk = false then stopEvs
  else stopEvs ++ (if dryrun then [] else [Ev.submit])

/-- A trace in which every submission is immediately preceded by a stop
attempt: no plan submission is ever issued without a stop request
directly before it. -/
def submits_stop_guarded (l : List Ev) : Prop :=
  ∀ i, l.get? i = some Ev.submit → ∃ j, i = j + 1 ∧ l.get? j = some Ev.stopOp

lemma submits_stop_guarded_append (a b : List Ev)
    (ha : submits_stop_guarded a) (hb : submits_stop_guarded b) :
    submits_stop_guarded (a ++ b) := by
  intro i hi
  rcases Nat.lt_or_ge i a.length with hlt | hge
  · rw [List.get?_append hlt] at hi
    obtain ⟨j, hj1, hj2⟩ := ha i hi
    refine ⟨j, hj1, ?_⟩
    rw [List.get?_append (by omega)]
    exact hj2
  · rw [List.get?_append_right hge] at hi
    obtain ⟨j, hj1, hj2⟩ := hb (i - a.length) hi
    refine ⟨a.length + j, by omega, ?_⟩
    rw [List.get?_append_right (by omega)]
    rw [show a.length + j - a.length = j by omega]
    exact hj2

lemma submits_stop_guarded_nil : submits_stop_guarded [] := by
  intro i hi
  simp at hi

lemma submits_stop_guarded_stop_submit : submits_stop_guarded [Ev.stopOp, Ev.submit] := by
  intro i hi
  match i with
  | 0 => simp at hi
  | 1 => exact ⟨0, rfl, rfl⟩
  | n + 2 => simp at hi

lemma submits_stop_guarded_stop_only : submits_stop_guarded [Ev.stopOp] := by
  intro i hi
  exfalso
  match i with
  | 0 => simp at hi
  | n + 1 => simp at hi

lemma submits_stop_guarded_sleep (n : Nat) : submits_stop_guarded [Ev.sleepFor n] := by
  intro i hi
  exfalso
  match i with
  | 0 => simp at hi
  | k + 1 => simp at hi

lemma start_imaging_plan_guarded (connected dryrun : Bool) (clientRes : Bool × String) :
    submits_stop_guarded (start_imaging_plan connected dryrun clientRes).1 := by
  cases connected with
  | false => exact submits_stop_guarded_nil
  | true =>
      cases dryrun with
      | false => exact submits_stop_guarded_stop_submit
      | true => exact submits_stop_guarded_stop_only

lemma execute_target_attempt_guarded (name : String) (connected dryrun : Bool)
    (clientRes : Bool × String) (monitorRes : MonitorOutcome) (le : Option String) :
    submits_stop_guarded
      (execute_target_attempt name connected dryrun clientRes monitorRes le).1 := by
  have h := start_imaging_plan_guarded connected dryrun clientRes
  rw [execute_target_attempt]
  rcases hs : start_imaging_plan connected dryrun clientRes with ⟨evs, res⟩
  rw [hs] at h
  match res with
  | none => exact h
  | some (true, m) =>
      match monitorRes with
      | MonitorOutcome.ok => exact h
      | MonitorOutcome.failed m2 => exact h
  | some (false, m) => exact h

lemma execute_target_go_guarded (cfg : RetryConfig) (name : String)
    (connected dryrun : Bool) (clientRes : Nat → Bool × String)
    (monitorRes : Nat → MonitorOutcome) :
    ∀ fuel attempt le,
    submits_stop_guarded
      (execute_target_go cfg name connected dryrun clientRes monitorRes fuel attempt le).1 := by
  intro fuel
  induction fuel with
  | zero => intro attempt le; exact submits_stop_guarded_nil
  | succ f ih =>
      intro attempt le
      rw [execute_target_go]
      simp only
      have hpre : submits_stop_guarded
          (if 1 < attempt then [Ev.sleepFor cfg.retry_interval_seconds] else []) := by
        split
        · exact submits_stop_guarded_sleep _
        · exact submits_stop_guarded_nil
      have hatt := execute_target_attempt_guarded name connected dryrun
        (clientRes attempt) (monitorRes attempt) le
      split
      · exact submits_stop_guarded_append _ _ hpre hatt
      · split
        · exact submits_stop_guarded_append _ _ hpre hatt
        · split
          · exact submits_stop_guarded_append _ _ hpre hatt
          · exact submits_stop_guarded_append _ _
              (submits_stop_guarded_append _ _ hpre hatt)
              (ih (attempt + 1) _)

/-- C2.  Stop-before-start ordering: in every trace produced by either
execution path (the orchestrator's `execute_target_observation` and the
executor's retrying `execute_target`), every plan submission is
immediately preceded by a stop attempt within the same attempt; no
submission is ever issued without such a stop directly before it. -/
theorem C2_stop_before_start :
    (∀ dryrun planOk : Bool,
      submits_stop_guarded (execute_target_observation_trace dryrun planOk)) ∧
    (∀ (cfg : RetryConfig) (name : String) (connected dryrun : Bool)
      (clientRes : Nat → Bool × String) (monitorRes : Nat → MonitorOutcome),
      submits_stop_guarded
        (execute_target cfg name connected dryrun clientRes monitorRes).1) := by
  constructor
  · intro dryrun planOk
    cases dryrun with
    | false =>
        cases planOk with
        | false => exact submits_stop_guarded_stop_only
        | true => exact submits_stop_guarded_stop_submit
    | true =>
        cases planOk with
        | false => exact submits_stop_guarded_nil
        | true => exact submits_stop_guarded_nil
  · intro cfg name connected dryrun clientRes monitorRes
    exact execute_target_go_guarded cfg name connected dryrun clientRes monitorRes
      cfg.max_attempts 1 none

/-- Witness for C2: in the concrete orchestrator trace `[stop, submit]`
the submission at index 1 is indeed preceded by the stop at index 0, and
likewise for a concrete executor run. -/
theorem C2_stop_before_start_witness :
    (∃ j, 1 = j + 1 ∧
      (execute_target_observation_trace false true).get? j = some Ev.stopOp) ∧
    (∃ j, (1 : Nat) = j + 1 ∧
      (execute_target (RetryConfig.mk true 1 0 []) "T" true false
        (fun _ => (true, "")) (fun _ => MonitorOutcome.ok)).1.get? j = some Ev.stopOp) :=
  ⟨C2_stop_before_start.1 false true 1 (by decide),
   C2_stop_before_start.2 (RetryConfig.mk true 1 0 []) "T" true false
     (fun _ => (true, "")) (fun _ => MonitorOutcome.ok) 1 (by decide)⟩

/-! ## Claim C8: monitoring error return

`TargetObservationExecutor.monitor_target_observation` (lines 459-548)
polls the remote status every 30 seconds.  The poll body checks, in this
order: completion (`is_completed`, i.e. the remote is no longer
running), error (`has_error`, i.e. the remote status carries an error
message), overall timeout, and meridian wait.  The remote status is
modelled by `AcpStatus`; the per-poll meridian-wait need and the elapsed
minutes are further stub parameters, and the loop gets fuel to stay
total (a `none` result means the loop was still polling when the fuel
ran out). -/

/-- Remote status snapshot, as produced by
`ACPConnectionManager.get_status` and consumed through
`_get_observation_status`: `is_completed = !is_running`,
`has_error = error.isSome`. -/
structure AcpStatus where
  is_running : Bool
  error : Option String

structure MonitorResult where
  success : Bool
  error : Option String
  deriving DecidableEq

/-- The polling loop of `monitor_target_observation`, one recursive call
per iteration; `k` counts polls from 0. -/
def monitor_target_observation_go (polls : Nat → AcpStatus) (wait_needed : Nat → Bool)
    (wait_ok : Nat → Bool) (elapsed : Nat → ℚ) (timeout_minutes : ℚ) :
    Nat → Nat → Option MonitorResult
  | 0, _ => none
  | fuel + 1, k =>
      let st := polls k
      if st.is_running = false then some (MonitorResult.mk true none)
      else if st.error.isSome then
        some (MonitorResult.mk false (some (st.error.getD "未知错误")))
      else if timeout_minutes ≤ elapsed k then some (MonitorResult.mk false (some "观测超时"))
      else if wait_needed k then
        if wait_ok k then
          monitor_target_observation_go polls wait_needed wait_ok elapsed timeout_minutes
            fuel (k + 1)
        else some (MonitorResult.mk false (some "中天反转等待被中断"))
      else
        monitor_target_observation_go polls wait_needed wait_ok elapsed timeout_minutes
          fuel (k + 1)

def monitor_target_observation (polls : Nat → AcpStatus) (wait_needed : Nat → Bool)
    (wait_ok : Nat → Bool) (elapsed : Nat → ℚ) (timeout_minutes : ℚ) (fuel : Nat) :
    Option MonitorResult :=
  monitor_target_observation_go polls wait_needed wait_ok elapsed timeout_minutes fuel 0

/-- C8 counterexample.  The claim says a poll reporting a remote error
makes the loop return `{success: false, error: <msg>}` on that same
poll, never treating the target as completed.  But the completion check
runs first: a poll with `is_running = false` and an error message makes
the loop return `{success: true}` (the error is ignored), because
`is_completed` is checked before `has_error`. -/
theorem C8_counterexample :
    (fun _ : Nat => AcpStatus.mk false (some "boom")) 0 = AcpStatus.mk false (some "boom") ∧
    monitor_target_observation (fun _ => AcpStatus.mk false (some "boom"))
      (fun _ => false) (fun _ => true) (fun _ => 0) 60 5 =
      some (MonitorResult.mk true none) :=
  ⟨rfl, rfl⟩

lemma monitor_go_error_reached (polls : Nat → AcpStatus) (wait_needed : Nat → Bool)
    (wait_ok : Nat → Bool) (elapsed : Nat → ℚ) (timeout_minutes : ℚ) (e : String) :
    ∀ (d start fuel : Nat), d < fuel →
    (∀ j, start ≤ j → j < start + d →
      polls j = AcpStatus.mk true none ∧ elapsed j < timeout_minutes ∧ wait_needed j = false) →
    (polls (start + d)).is_running = true → (polls (start + d)).error = some e →
    monitor_target_observation_go polls wait_needed wait_ok elapsed timeout_minutes fuel start =
      some (MonitorResult.mk false (some e)) := by
  intro d
  induction d with
  | zero =>
      intro start fuel hfuel _ hrun herr
      obtain ⟨f, rfl⟩ : ∃ f, fuel = f + 1 := ⟨fuel - 1, by omega⟩
      rw [monitor_target_observation_go]
      rw [Nat.add_zero] at hrun herr
      simp only [hrun, herr]
      simp
  | succ d ih =>
      intro start fuel hfuel hgood hrun herr
      obtain ⟨f, rfl⟩ : ∃ f, fuel = f + 1 := ⟨fuel - 1, by omega⟩
      rw [monitor_target_observation_go]
      obtain ⟨hst, hel, hwn⟩ := hgood start (by omega) (by omega)
      simp only [hst, hwn]
      rw [if_neg (by simp), if_neg (by simp), if_neg (by exact not_le.mpr hel),
        if_neg (by simp)]
      have := ih (start + 1) f (by omega)
        (fun j hj1 hj2 => hgood j (by omega) (by omega))
        (by rw [show start + 1 + d = start + (d + 1) by omega]; exact hrun)
        (by rw [show start + 1 + d = start + (d + 1) by omega]; exact herr)
      rw [← this]

/-- C8 (amended).  If a status poll reports a remote error while the
remote still reports the operation as running, the loop returns
`{success: false, error: <that message>}` on that same poll, without
waiting for natural completion and without treating the target as
completed.  (When the error coincides with `is_running = false` the
completion check wins instead; see `C8_counterexample`.) -/
theorem C8_monitor_error_return (polls : Nat → AcpStatus) (wait_needed : Nat → Bool)
    (wait_ok : Nat → Bool) (elapsed : Nat → ℚ) (timeout_minutes : ℚ)
    (k fuel : Nat) (e : String)
    (hreach : ∀ j, j < k →
      polls j = AcpStatus.mk true none ∧ elapsed j < timeout_minutes ∧ wait_needed j = false)
    (hrun : (polls k).is_running = true) (herr : (polls k).error = some e)
    (hfuel : k < fuel) :
    monitor_target_observation polls wait_needed wait_ok elapsed timeout_minutes fuel =
      some (MonitorResult.mk false (some e)) := by
  rw [monitor_target_observation]
  exact monitor_go_error_reached polls wait_needed wait_ok elapsed timeout_minutes e k 0 fuel
    hfuel (fun j _ hj2 => hreach j (by omega))
    (by rw [Nat.zero_add]; exact hrun) (by rw [Nat.zero_add]; exact herr)

/-- Witness for the amended C8: two healthy polls, then an error while
still running; the loop fails with that error on poll 2. -/
theorem C8_monitor_error_return_witness :
    monitor_target_observation
      (fun j => if j < 2 then AcpStatus.mk true none else AcpStatus.mk true (some "remote error"))
      (fun _ => false) (fun _ => true) (fun _ => 0) 60 5 =
      some (MonitorResult.mk false (some "remote error")) :=
  C8_monitor_error_return
    (fun j => if j < 2 then AcpStatus.mk true none else AcpStatus.mk true (some "remote error"))
    (fun _ => false) (fun _ => true) (fun _ => 0) 60 2 5 "remote error"
    (fun j hj => by
      interval_cases j <;> exact ⟨rfl, by norm_num, rfl⟩)
    rfl rfl (by omega)

/-! ## The GUI scheduler data model (src/ACP/models.py, src/ACP/gui/scheduler.py)

`ScheduledTarget` is a dataclass with `name`, `start_time : datetime`,
`plan_config : dict` and `status` (default "等待中" / Waiting).  A
datetime is modelled here by its broken-down fields, since that is all
the persistence format reads; `plan_config` is an opaque record carried
through unchanged, modelled as an association list with numeric values
(enough to carry a `priority` entry). -/

structure DT where
  year : Nat
  month : Nat
  day : Nat
  hour : Nat
  minute : Nat
  second : Nat
  microsecond : Nat
  deriving DecidableEq

structure ScheduledTarget where
  name : String
  start_time : DT
  plan_config : List (String × Nat)
  status : String
  deriving DecidableEq

/-- Lexicographic Bool comparison of equal-length field lists; Python
compares `datetime` values exactly this way. -/
def listLeLex : List Nat → List Nat → Bool
  | [], _ => true
  | _ :: _, [] => false
  | a :: as, b :: bs => if a < b then true else if b < a then false else listLeLex as bs

def dtFields (d : DT) : List Nat :=
  [d.year, d.month, d.day, d.hour, d.minute, d.second, d.microsecond]

def dt_le (a b : DT) : Prop := listLeLex (dtFields a) (dtFields b) = true

instance : DecidableRel dt_le := fun a b => instDecidableEqBool _ _

/-- Sort-key order used by `TargetScheduler.add_target`
(`self.targets.sort(key=lambda t: t.start_time)`): compare start times
only. -/
def start_le (a b : ScheduledTarget) : Prop := dt_le a.start_time b.start_time

instance : DecidableRel start_le := fun a b => instDecidableEqBool _ _

lemma listLeLex_total : ∀ xs ys : List Nat, listLeLex xs ys = true ∨ listLeLex ys xs = true := by
  intro xs
  induction xs with
  | nil => intro ys; exact Or.inl rfl
  | cons a as ih =>
      intro ys
      cases ys with
      | nil => exact Or.inr rfl
      | cons b bs =>
          rw [listLeLex, listLeLex]
          rcases Nat.lt_trichotomy a b with h | h | h
          · left; rw [if_pos h]
          · subst h
            rcases ih bs with h2 | h2
            · left; rw [if_neg (by omega), if_neg (by omega)]; exact h2
            · right; rw [if_neg (by omega), if_neg (by omega)]; exact h2
          · right; rw [if_pos h]

lemma listLeLex_trans : ∀ xs ys zs : List Nat,
    listLeLex xs ys = true → listLeLex ys zs = true → listLeLex xs zs = true := by
  intro xs
  induction xs with
  | nil => intro ys zs _ _; rfl
  | cons a as ih =>
      intro ys zs hxy hyz
      cases ys with
      | nil => rw [listLeLex] at hxy; exact absurd hxy (by simp)
      | cons b bs =>
          cases zs with
          | nil => rw [listLeLex] at hyz; exact absurd hyz (by simp)
          | cons c cs =>
              rw [listLeLex] at hxy hyz ⊢
              rcases Nat.lt_trichotomy a b with h1 | h1 | h1
              · rcases Nat.lt_trichotomy b c with h2 | h2 | h2
                · rw [if_pos (by omega)]
                · subst h2; rw [if_pos (by omega)]
                · rw [if_neg (by omega), if_pos h2] at hyz
                  exact absurd hyz (by simp)
              · subst h1
                rcases Nat.lt_trichotomy a c with h2 | h2 | h2
                · rw [if_pos h2]
                · subst h2
                  rw [if_neg (by omega), if_neg (by omega)] at hxy hyz ⊢
                  exact ih _ _ hxy hyz
                · rw [if_neg (by omega), if_pos h2] at hyz
                  exact absurd hyz (by simp)
              · rw [if_neg (by omega), if_pos h1] at hxy
                exact absurd hxy (by simp)

instance : IsTotal ScheduledTarget start_le :=
  ⟨fun a b => listLeLex_total (dtFields a.start_time) (dtFields b.start_time)⟩

instance : IsTrans ScheduledTarget start_le :=
  ⟨fun a b c => listLeLex_trans (dtFields a.start_time) (dtFields b.start_time)
    (dtFields c.start_time)⟩

/-- `TargetScheduler.add_target` (scheduler.py lines 31-36): append the
new target, then re-sort the list by `start_time` with Python's stable
sort.  A stable sort of `q ++ [t]` by a total preorder is extensionally
`List.insertionSort`, which is stable for this orientation. -/
def add_target (q : List ScheduledTarget) (t : ScheduledTarget) : List ScheduledTarget :=
  List.insertionSort start_le (q ++ [t])

/-! ## Claim C4: queue ordering -/

/-- Priority as the GUI config layers read it from a target record:
`target.get('priority', 0)`. -/
def dict_priority (pc : List (String × Nat)) : Nat :=
  ((pc.find? (fun p => p.1 = "priority")).map Prod.snd).getD 0

/-- The ordering the claim asserts: ascending by the pair
`(startTime, priority)`, lower priority first at equal start times. -/
def sorted_by_start_priority (prio : ScheduledTarget → Nat) (q : List ScheduledTarget) : Prop :=
  List.Pairwise (fun a b => dt_le a.start_time b.start_time ∧
    (a.start_time = b.start_time → prio a ≤ prio b)) q

/-- C4 counterexample.  `add_target` sorts by `start_time` alone and the
sort is stable, so two targets added with equal start times stay in
insertion order whatever their priorities: adding priority 2 before
priority 1 leaves the priority-2 target first, violating the claimed
`(startTime, priority)` ordering. -/
theorem C4_counterexample :
    add_target (add_target []
        (ScheduledTarget.mk "A" (DT.mk 2024 1 1 20 0 0 0) [("priority", 2)] "等待中"))
        (ScheduledTarget.mk "B" (DT.mk 2024 1 1 20 0 0 0) [("priority", 1)] "等待中") =
      [ScheduledTarget.mk "A" (DT.mk 2024 1 1 20 0 0 0) [("priority", 2)] "等待中",
       ScheduledTarget.mk "B" (DT.mk 2024 1 1 20 0 0 0) [("priority", 1)] "等待中"] ∧
    ¬ sorted_by_start_priority (fun t => dict_priority t.plan_config)
      (add_target (add_target []
        (ScheduledTarget.mk "A" (DT.mk 2024 1 1 20 0 0 0) [("priority", 2)] "等待中"))
        (ScheduledTarget.mk "B" (DT.mk 2024 1 1 20 0 0 0) [("priority", 1)] "等待中")) := by
  constructor
  · decide
  · intro h
    rw [sorted_by_start_priority] at h
    have h2 := List.rel_of_pairwise_cons
      (by
        rw [show add_target (add_target []
            (ScheduledTarget.mk "A" (DT.mk 2024 1 1 20 0 0 0) [("priority", 2)] "等待中"))
            (ScheduledTarget.mk "B" (DT.mk 2024 1 1 20 0 0 0) [("priority", 1)] "等待中") =
          [ScheduledTarget.mk "A" (DT.mk 2024 1 1 20 0 0 0) [("priority", 2)] "等待中",
           ScheduledTarget.mk "B" (DT.mk 2024 1 1 20 0 0 0) [("priority", 1)] "等待中"]
          from by decide] at h
        exact h)
      (List.mem_singleton.mpr rfl)
    exact absurd (h2.2 rfl) (by decide)

/-- C4 (amended).  After every `add_target` the queue is sorted
ascending by `start_time` (ties at equal start times keep insertion
order, because the sort is stable and consults only the start time; the
`(startTime, priority)` pair sort exists only as the one-shot sort in
`MultiTargetConfigManager._parse_config`), and the queue is a
permutation of the old queue plus the new target. -/
theorem C4_add_sorted_by_start (q : List ScheduledTarget) (t : ScheduledTarget) :
    List.Sorted start_le (add_target q t) ∧ (add_target q t).Perm (q ++ [t]) :=
  ⟨List.sorted_insertionSort start_le (q ++ [t]),
   List.perm_insertionSort start_le (q ++ [t])⟩

/-! ## Claim C9: persistence round trip

`ScheduledTarget.to_dict` (models.py lines 54-61) stores the start time
as `strftime('%Y-%m-%d %H:%M:%S')`; `from_dict` (lines 63-71) parses it
back with `strptime` and defaults a missing `status` key to "等待中".
The fixed-width format/parse pair is modelled on the character list,
and `strptime`'s range validation (including the `datetime` constructor
check) by `DT.Valid`. -/

def digc (n : Nat) : Char := Char.ofNat (48 + n)

def dval (c : Char) : Nat := c.toNat - 48

def pad2 (n : Nat) : List Char := [digc (n / 10), digc (n % 10)]

def pad4 (n : Nat) : List Char :=
  [digc (n / 1000), digc (n / 100 % 10), digc (n / 10 % 10), digc (n % 10)]

/-- `datetime.strftime('%Y-%m-%d %H:%M:%S')`: the microsecond field is
not rendered. -/
def strftime_ymd_hms (d : DT) : String :=
  String.mk (pad4 d.year ++ '-' :: (pad2 d.month ++ '-' :: (pad2 d.day ++ ' ' ::
    (pad2 d.hour ++ ':' :: (pad2 d.minute ++ ':' :: pad2 d.second)))))

def leap_year (y : Nat) : Bool := (y % 4 = 0 && y % 100 ≠ 0) || y % 400 = 0

def days_in_month (y m : Nat) : Nat :=
  if m = 2 then (if leap_year y then 29 else 28)
  else if m = 4 ∨ m = 6 ∨ m = 9 ∨ m = 11 then 30
  else 31

/-- Validity of the broken-down fields, as `strptime` plus the
`datetime` constructor enforce. -/
def DT.Valid (d : DT) : Prop :=
  1 ≤ d.year ∧ d.year ≤ 9999 ∧ 1 ≤ d.month ∧ d.month ≤ 12 ∧
  1 ≤ d.day ∧ d.day ≤ days_in_month d.year d.month ∧
  d.hour ≤ 23 ∧ d.minute ≤ 59 ∧ d.second ≤ 59 ∧ d.microsecond ≤ 999999

instance (d : DT) : Decidable d.Valid := by
  rw [DT.Valid]
  infer_instance

/-- `datetime.strptime(s, '%Y-%m-%d %H:%M:%S')` on the fixed-width form
`to_dict` writes: exactly 19 characters, digits and separators in place,
fields in range; microseconds parse as 0.  Any other input raises
(`none`). -/
def strptime_ymd_hms (s : String) : Option DT :=
  match s.data with
  | [y1, y2, y3, y4, c1, m1, m2, c2, d1, d2, c3, h1, h2, c4, n1, n2, c5, s1, s2] =>
      if (y1.isDigit && y2.isDigit && y3.isDigit && y4.isDigit &&
          m1.isDigit && m2.isDigit && d1.isDigit && d2.isDigit &&
          h1.isDigit && h2.isDigit && n1.isDigit && n2.isDigit &&
          s1.isDigit && s2.isDigit) = true ∧
          c1 = '-' ∧ c2 = '-' ∧ c3 = ' ' ∧ c4 = ':' ∧ c5 = ':' then
        let d := DT.mk (((dval y1 * 10 + dval y2) * 10 + dval y3) * 10 + dval y4)
          (dval m1 * 10 + dval m2) (dval d1 * 10 + dval d2)
          (dval h1 * 10 + dval h2) (dval n1 * 10 + dval n2) (dval s1 * 10 + dval s2) 0
        if d.Valid then some d else none
      else none
  | _ => none

/-- Saved record form of one target (one element of the JSON array
written by `save_to_file`); `status : none` models an older record
without the status key. -/
structure TargetRecord where
  name : String
  start_time : String
  plan_config : List (String × Nat)
  status : Option String
  deriving DecidableEq

/-- `ScheduledTarget.to_dict`. -/
def to_dict (t : ScheduledTarget) : TargetRecord :=
  TargetRecord.mk t.name (strftime_ymd_hms t.start_time) t.plan_config (some t.status)

/-- `ScheduledTarget.from_dict`: parse failure raises (`none`); a
missing status key defaults to "等待中". -/
def from_dict (r : TargetRecord) : Option ScheduledTarget :=
  (strptime_ymd_hms r.start_time).map fun d =>
    ScheduledTarget.mk r.name d r.plan_config (r.status.getD "等待中")

/-- `TargetScheduler.save_to_file` serializes the queue as
`[t.to_dict() for t in self.targets]`. -/
def serialize_queue (q : List ScheduledTarget) : List TargetRecord := q.map to_dict

/-- `TargetScheduler.load_from_file`: parse every record (any failure
aborts the load) and then re-sort by start time. -/
def load_queue (rs : List TargetRecord) : Option (List ScheduledTarget) :=
  (rs.mapM from_dict).map (List.insertionSort start_le)

lemma digc_isDigit (n : Nat) (h : n < 10) : (digc n).isDigit = true := by
  interval_cases n <;> decide

lemma dval_digc (n : Nat) (h : n < 10) : dval (digc n) = n := by
  interval_cases n <;> decide

lemma days_in_month_le_31 (y m : Nat) : days_in_month y m ≤ 31 := by
  rw [days_in_month]
  split
  · split <;> omega
  · split <;> omega

lemma strptime_strftime (d : DT) (hv : d.Valid) :
    strptime_ymd_hms (strftime_ymd_hms d) =
      some (DT.mk d.year d.month d.day d.hour d.minute d.second 0) := by
  obtain ⟨h1, h2, h3, h4, h5, h6, h7, h8, h9, _⟩ := hv
  have hd31 : d.day ≤ 31 := le_trans h6 (days_in_month_le_31 d.year d.month)
  rw [strftime_ymd_hms, strptime_ymd_hms]
  simp only [pad4, pad2, List.cons_append, List.nil_append]
  rw [if_pos ⟨by
      rw [digc_isDigit _ (show d.year / 1000 < 10 by omega),
        digc_isDigit _ (show d.year / 100 % 10 < 10 by omega),
        digc_isDigit _ (show d.year / 10 % 10 < 10 by omega),
        digc_isDigit _ (show d.year % 10 < 10 by omega),
        digc_isDigit _ (show d.month / 10 < 10 by omega),
        digc_isDigit _ (show d.month % 10 < 10 by omega),
        digc_isDigit _ (show d.day / 10 < 10 by omega),
        digc_isDigit _ (show d.day % 10 < 10 by omega),
        digc_isDigit _ (show d.hour / 10 < 10 by omega),
        digc_isDigit _ (show d.hour % 10 < 10 by omega),
        digc_isDigit _ (show d.minute / 10 < 10 by omega),
        digc_isDigit _ (show d.minute % 10 < 10 by omega),
        digc_isDigit _ (show d.second / 10 < 10 by omega),
        digc_isDigit _ (show d.second % 10 < 10 by omega)]
      rfl, trivial, trivial, trivial, trivial, trivial⟩]
  simp only [dval_digc _ (show d.year / 1000 < 10 by omega),
    dval_digc _ (show d.year / 100 % 10 < 10 by omega),
    dval_digc _ (show d.year / 10 % 10 < 10 by omega),
    dval_digc _ (show d.year % 10 < 10 by omega),
    dval_digc _ (show d.month / 10 < 10 by omega),
    dval_digc _ (show d.month % 10 < 10 by omega),
    dval_digc _ (show d.day / 10 < 10 by omega),
    dval_digc _ (show d.day % 10 < 10 by omega),
    dval_digc _ (show d.hour / 10 < 10 by omega),
    dval_digc _ (show d.hour % 10 < 10 by omega),
    dval_digc _ (show d.minute / 10 < 10 by omega),
    dval_digc _ (show d.minute % 10 < 10 by omega),
    dval_digc _ (show d.second / 10 < 10 by omega),
    dval_digc _ (show d.second % 10 < 10 by omega)]
  rw [show ((d.year / 1000 * 10 + d.year / 100 % 10) * 10 + d.year / 10 % 10) * 10 +
        d.year % 10 = d.year from by omega,
    show d.month / 10 * 10 + d.month % 10 = d.month from by omega,
    show d.day / 10 * 10 + d.day % 10 = d.day from by omega,
    show d.hour / 10 * 10 + d.hour % 10 = d.hour from by omega,
    show d.minute / 10 * 10 + d.minute % 10 = d.minute from by omega,
    show d.second / 10 * 10 + d.second % 10 = d.second from by omega]
  rw [if_pos (show (DT.mk d.year d.month d.day d.hour d.minute d.second 0).Valid from by
    rw [DT.Valid]
    exact ⟨h1, h2, h3, h4, h5, h6, h7, h8, h9, show (0 : Nat) ≤ 999999 from by omega⟩)]

lemma from_dict_to_dict (t : ScheduledTarget) (hv : t.start_time.Valid)
    (hus : t.start_time.microsecond = 0) : from_dict (to_dict t) = some t := by
  rw [to_dict, from_dict]
  simp only
  rw [strptime_strftime t.start_time hv]
  rw [Option.map_some']
  have : DT.mk t.start_time.year t.start_time.month t.start_time.day t.start_time.hour
      t.start_time.minute t.start_time.second 0 = t.start_time := by
    cases ht : t.start_time with
    | mk y mo dd hh mi ss us =>
        rw [ht] at hus
        simp only at hus
        rw [hus]
  rw [this]
  rfl

lemma mapM_from_dict_to_dict (q : List ScheduledTarget)
    (hq : ∀ t ∈ q, t.start_time.Valid ∧ t.start_time.microsecond = 0) :
    List.mapM from_dict (q.map to_dict) = some q := by
  induction q with
  | nil => rfl
  | cons t ts ih =>
      rw [List.map_cons, List.mapM_cons]
      rw [from_dict_to_dict t (hq t (List.mem_cons_self t ts)).1
        (hq t (List.mem_cons_self t ts)).2]
      rw [ih (fun u hu => hq u (List.mem_cons_of_mem t hu))]
      rfl

/-- C9 counterexample.  The serialized form stores the start time as
`strftime('%Y-%m-%d %H:%M:%S')`, which drops microseconds, so a target
whose start time carries a sub-second component does not round-trip
equal: it comes back with the microseconds truncated to 0. -/
theorem C9_counterexample :
    from_dict (to_dict (ScheduledTarget.mk "A" (DT.mk 2024 1 1 20 0 0 500000) [] "等待中")) =
      some (ScheduledTarget.mk "A" (DT.mk 2024 1 1 20 0 0 0) [] "等待中") ∧
    from_dict (to_dict (ScheduledTarget.mk "A" (DT.mk 2024 1 1 20 0 0 500000) [] "等待中")) ≠
      some (ScheduledTarget.mk "A" (DT.mk 2024 1 1 20 0 0 500000) [] "等待中") := by
  constructor <;> decide

/-- C9 (amended).  For every queue of targets whose start times are
valid datetimes of whole-second resolution (no sub-second component),
serializing with `to_dict` and loading back yields targets equal to the
originals in name, start time, plan config and status (the loader's
re-sort is the identity on the queue, which `add_target` keeps sorted);
and a record lacking the status field deserializes with status
"等待中" (Waiting). -/
theorem C9_round_trip (q : List ScheduledTarget)
    (hq : ∀ t ∈ q, t.start_time.Valid ∧ t.start_time.microsecond = 0)
    (hs : List.Sorted start_le q) :
    load_queue (serialize_queue q) = some q ∧
    (∀ (r : TargetRecord) (d : DT), strptime_ymd_hms r.start_time = some d →
      r.status = none →
      from_dict r = some (ScheduledTarget.mk r.name d r.plan_config "等待中")) := by
  constructor
  · rw [load_queue, serialize_queue]
    rw [mapM_from_dict_to_dict q hq, Option.map_some']
    rw [List.Sorted.insertionSort_eq hs]
  · intro r d hp hn
    rw [from_dict, hp, Option.map_some', hn]
    rfl

/-- Witness for the amended C9: a queue of three targets with mixed
statuses round-trips, and a record without a status field loads as
Waiting. -/
theorem C9_round_trip_witness :
    load_queue (serialize_queue
      [ScheduledTarget.mk "A" (DT.mk 2024 1 1 20 0 0 0) [("priority", 1)] "已完成",
       ScheduledTarget.mk "B" (DT.mk 2024 1 1 21 30 0 0) [] "执行中",
       ScheduledTarget.mk "C" (DT.mk 2024 1 2 1 0 5 0) [] "等待中"]) =
      some
      [ScheduledTarget.mk "A" (DT.mk 2024 1 1 20 0 0 0) [("priority", 1)] "已完成",
       ScheduledTarget.mk "B" (DT.mk 2024 1 1 21 30 0 0) [] "执行中",
       ScheduledTarget.mk "C" (DT.mk 2024 1 2 1 0 5 0) [] "等待中"] ∧
    from_dict (TargetRecord.mk "D" "2024-01-01 20:00:00" [] none) =
      some (ScheduledTarget.mk "D" (DT.mk 2024 1 1 20 0 0 0) [] "等待中") :=
  ⟨(C9_round_trip
      [ScheduledTarget.mk "A" (DT.mk 2024 1 1 20 0 0 0) [("priority", 1)] "已完成",
       ScheduledTarget.mk "B" (DT.mk 2024 1 1 21 30 0 0) [] "执行中",
       ScheduledTarget.mk "C" (DT.mk 2024 1 2 1 0 5 0) [] "等待中"]
      (by decide) (by decide)).1,
   (C9_round_trip [] (by decide) (by decide)).2
     (TargetRecord.mk "D" "2024-01-01 20:00:00" [] none) (DT.mk 2024 1 1 20 0 0 0)
     (by decide) rfl⟩

/-! ## The meridian-flip calculator (src/scripts/lib/meridian_flip_manager.py)

Points in time are rationals: seconds since 0001-01-01 00:00:00 local
time.  `dayOf` is the calendar date as a day number (`datetime.date()`
comparisons become integer comparisons), and the broken-down fields that
`_calculate_julian_day` reads are recovered with the standard
civil-from-days conversion.  Python float arithmetic is modelled
exactly over `ℚ`; `x % 24` on floats (result in `[0, 24)`) becomes
`qmod24`. -/

/-- Python `x % 24.0` for a positive modulus: the representative in
`[0, 24)`. -/
def qmod24 (x : ℚ) : ℚ := x - 24 * ⌊x / 24⌋

/-- Calendar date of a point in time, as a day number (day 0 is
0001-01-01, the smallest Python `datetime` date). -/
def dayOf (t : ℚ) : ℤ := ⌊t / 86400⌋

def secOfDay (t : ℚ) : ℚ := t - 86400 * dayOf t

/-- Whole seconds since local midnight (`datetime` stores whole
seconds plus a microsecond field the julian-day formula ignores). -/
def natSec (t : ℚ) : ℕ := (⌊secOfDay t⌋).toNat

def hourOf (t : ℚ) : ℕ := natSec t / 3600

def minuteOf (t : ℚ) : ℕ := natSec t % 3600 / 60

def secondOf (t : ℚ) : ℕ := natSec t % 60

/-- Civil date (year, month, day) from a day number (Howard Hinnant's
`civil_from_days`, shifted to day 0 = 0001-01-01). -/
def civil_from_days (z : ℕ) : ℕ × ℕ × ℕ :=
  let shifted := z + 306
  let era := shifted / 146097
  let doe := shifted % 146097
  let yoe := (doe - doe / 1460 + doe / 36524 - doe / 146096) / 365
  let y := yoe + era * 400
  let doy := doe - (365 * yoe + yoe / 4 - yoe / 100)
  let mp := (5 * doy + 2) / 153
  let dd := doy - (153 * mp + 2) / 5 + 1
  let m := if mp < 10 then mp + 3 else mp - 9
  (if m ≤ 2 then y + 1 else y, m, dd)

/-- `MeridianFlipManager._calculate_julian_day`: the integer
day-of-month/month/year formula plus the fraction of the day from
hour/minute/second. -/
def calculate_julian_day (t : ℚ) : ℚ :=
  let z := (dayOf t).toNat
  let c := civil_from_days z
  let a := (14 - c.2.1) / 12
  let y := c.1 + 4800 - a
  let m := c.2.1 + 12 * a - 3
  let jdn := c.2.2 + (153 * m + 2) / 5 + 365 * y + y / 4 - y / 100 + y / 400 - 32045
  (jdn : ℚ) + ((hourOf t : ℚ) + (minuteOf t : ℚ) / 60 + (secondOf t : ℚ) / 3600) / 24

/-- `MeridianFlipManager._calculate_lst`: Greenwich sidereal time from
the julian date, folded into `[0, 24)`, plus the longitude in hours,
folded again. -/
def calculate_lst (longitude : ℚ) (t : ℚ) : ℚ :=
  let jd := calculate_julian_day t
  let tj := (jd - 2451545.0) / 36525.0
  let gst := qmod24 (6.697374558 + 2400.051336 * tj + 0.000025862 * tj * tj)
  qmod24 (gst + longitude / 15.0)

/-- Split a character list at a separator (Python `str.split(sep)`). -/
def splitCh (sep : Char) : List Char → List (List Char)
  | [] => [[]]
  | c :: cs =>
      let r := splitCh sep cs
      if c = sep then [] :: r
      else
        match r with
        | [] => [[c]]
        | g :: gs => (c :: g) :: gs

/-- Value of a non-empty all-digit character list. -/
def digitsVal (cs : List Char) : Option ℕ :=
  if cs ≠ [] ∧ cs.all Char.isDigit then
    some (cs.foldl (fun a c => a * 10 + dval c) 0)
  else none

/-- Python `float(s)` on plain decimal literals: optional sign, integer
part, optional fractional part (at least one digit overall).  Exponent
and special forms are outside the inputs this repository feeds it. -/
def parse_float (s : String) : Option ℚ :=
  let p : ℚ × List Char :=
    match s.data with
    | '-' :: r => (-1, r)
    | '+' :: r => (1, r)
    | r => (1, r)
  match splitCh '.' p.2 with
  | [ip] => (digitsVal ip).map fun n => p.1 * n
  | [ip, fp] =>
      if ip = [] ∧ fp = [] then none
      else
        match (if ip = [] then some 0 else digitsVal ip),
            (if fp = [] then some 0 else digitsVal fp) with
        | some i, some f => some (p.1 * ((i : ℚ) + (f : ℚ) / 10 ^ fp.length))
        | _, _ => none
  | _ => none

/-- `MeridianFlipManager._parse_ra`: split on ':', parse the first three
parts as floats, return hours. -/
def parse_ra (ra : String) : Option ℚ :=
  match splitCh ':' ra.data with
  | p0 :: p1 :: p2 :: _ =>
      match parse_float (String.mk p0), parse_float (String.mk p1),
          parse_float (String.mk p2) with
      | some h, some m, some s => some (h + m / 60 + s / 3600)
      | _, _, _ => none
  | _ => none

/-- `MeridianFlipManager._parse_dec`: the sign is read from a leading
'+', the first character is dropped unconditionally, and the rest is
split on ':'. -/
def parse_dec (dec : String) : Option ℚ :=
  let sgn : ℚ := if dec.data.head? = some '+' then 1 else -1
  match splitCh ':' (dec.data.drop 1) with
  | p0 :: p1 :: p2 :: _ =>
      match parse_float (String.mk p0), parse_float (String.mk p1),
          parse_float (String.mk p2) with
      | some d, some m, some s => some (sgn * ((d : ℚ) + m / 60 + s / 3600))
      | _, _, _ => none
  | _ => none

/-- The fold of `delta_lst` into the ±12h band (lines 75-78: one `if` /
`elif`, applied once). -/
def fold_delta (x : ℚ) : ℚ :=
  if 12 < x then x - 24 else if x < -12 then x + 24 else x

/-- The date correction (lines 84-87): move the shifted time by exactly
one day when its calendar date differs from `observation_date`'s. -/
def date_correct (t m0 : ℚ) : ℚ :=
  if dayOf m0 < dayOf t then m0 + 86400
  else if dayOf t < dayOf m0 then m0 - 86400 else m0

/-- `MeridianFlipManager.calculate_meridian_time` (lines 47-93): find
the RA-minus-LST offset, fold once into the ±12h band, shift `now`, and
move the result by exactly one day if it landed on an adjacent calendar
date.  Parse failures (the `except`) yield `none`. -/
def calculate_meridian_time (longitude : ℚ) (ra dec : String) (observation_date : ℚ) :
    Option ℚ :=
  match parse_ra ra, parse_dec dec with
  | some raH, some _ =>
      some (date_correct observation_date
        (observation_date + fold_delta (raH - calculate_lst longitude observation_date) * 3600))
  | _, _ => none

structure FlipWindow where
  stop_time : ℚ
  meridian_time : ℚ
  resume_time : ℚ
  deriving DecidableEq

/-- `MeridianFlipManager.calculate_meridian_flip_window` (lines 95-121)
with the manager's parameters `stop_minutes_before`,
`resume_minutes_after` and `safety_margin` passed explicitly. -/
def calculate_meridian_flip_window (longitude : ℚ) (sb rma sm : ℕ) (ra dec : String)
    (t : ℚ) : Option FlipWindow :=
  (calculate_meridian_time longitude ra dec t).map fun m =>
    FlipWindow.mk (m - ((sb : ℚ) + sm) * 60) m (m + ((rma : ℚ) + sm) * 60)

structure MeridianCheck where
  status : String
  wait_needed : Bool
  wait_until : Option ℚ
  deriving DecidableEq

/-- `MeridianFlipManager.check_meridian_flip_needed` (lines 123-201):
classify `current_time` against the window. -/
def check_meridian_flip_needed (longitude : ℚ) (sb rma sm : ℕ) (ra dec : String)
    (current_time : ℚ) : MeridianCheck :=
  match calculate_meridian_flip_window longitude sb rma sm ra dec current_time with
  | none => MeridianCheck.mk "error" false none
  | some w =>
      if current_time < w.stop_time then MeridianCheck.mk "before_window" false none
      else if w.stop_time ≤ current_time ∧ current_time < w.meridian_time then
        MeridianCheck.mk "stop_before_meridian" true (some w.meridian_time)
      else if w.meridian_time ≤ current_time ∧ current_time < w.resume_time then
        MeridianCheck.mk "wait_after_meridian" true (some w.resume_time)
      else MeridianCheck.mk "after_window" false none

/-! ## General facts about the meridian arithmetic -/

lemma qmod24_eq_fract (x : ℚ) : qmod24 x = 24 * Int.fract (x / 24) := by
  rw [qmod24, Int.fract]
  ring

lemma qmod24_nonneg (x : ℚ) : 0 ≤ qmod24 x := by
  rw [qmod24_eq_fract]
  exact mul_nonneg (by norm_num) (Int.fract_nonneg _)

lemma qmod24_lt_24 (x : ℚ) : qmod24 x < 24 := by
  rw [qmod24_eq_fract]
  have := Int.fract_lt_one (x / 24)
  linarith

lemma calculate_lst_nonneg (longitude t : ℚ) : 0 ≤ calculate_lst longitude t :=
  qmod24_nonneg _

lemma calculate_lst_lt_24 (longitude t : ℚ) : calculate_lst longitude t < 24 :=
  qmod24_lt_24 _

lemma fold_delta_mem (x : ℚ) (hlo : -24 < x) (hhi : x < 24) :
    -12 ≤ fold_delta x ∧ fold_delta x ≤ 12 := by
  rw [fold_delta]
  split_ifs <;> constructor <;> linarith

lemma dayOf_le (t : ℚ) : (dayOf t : ℚ) * 86400 ≤ t := by
  rw [dayOf]
  have h := Int.floor_le (t / 86400)
  have h2 : (0 : ℚ) < 86400 := by norm_num
  calc ((⌊t / 86400⌋ : ℚ)) * 86400 ≤ t / 86400 * 86400 := by nlinarith
    _ = t := by field_simp

lemma lt_dayOf_succ (t : ℚ) : t < ((dayOf t : ℚ) + 1) * 86400 := by
  rw [dayOf]
  have h := Int.lt_floor_add_one (t / 86400)
  have h2 : (0 : ℚ) < 86400 := by norm_num
  calc t = t / 86400 * 86400 := by field_simp
    _ < ((⌊t / 86400⌋ : ℚ) + 1) * 86400 := by nlinarith

lemma dayOf_add_86400 (t : ℚ) : dayOf (t + 86400) = dayOf t + 1 := by
  rw [dayOf, dayOf]
  rw [show (t + 86400) / 86400 = t / 86400 + 1 by ring]
  exact_mod_cast Int.floor_add_one (t / 86400)

lemma dayOf_sub_86400 (t : ℚ) : dayOf (t - 86400) = dayOf t - 1 := by
  rw [dayOf, dayOf]
  rw [show (t - 86400) / 86400 = t / 86400 - (1 : ℤ) by push_cast; ring]
  exact Int.floor_sub_int (t / 86400) 1

lemma dayOf_near (t m0 : ℚ) (h1 : t - 43200 ≤ m0) (h2 : m0 ≤ t + 43200) :
    dayOf t - 1 ≤ dayOf m0 ∧ dayOf m0 ≤ dayOf t + 1 := by
  constructor
  · rw [dayOf, dayOf]
    rw [Int.le_floor]
    have hfl := dayOf_le t
    rw [dayOf] at hfl
    rw [le_div_iff (by norm_num : (0 : ℚ) < 86400)]
    push_cast
    linarith
  · rw [dayOf, dayOf]
    have : (⌊m0 / 86400⌋ : ℤ) < ⌊t / 86400⌋ + 2 := by
      rw [Int.floor_lt]
      have hfl := lt_dayOf_succ t
      rw [dayOf] at hfl
      rw [div_lt_iff (by norm_num : (0 : ℚ) < 86400)]
      push_cast
      linarith
    omega

lemma date_correct_day (t m0 : ℚ) (hlo : dayOf t - 1 ≤ dayOf m0)
    (hhi : dayOf m0 ≤ dayOf t + 1) : dayOf (date_correct t m0) = dayOf t := by
  rw [date_correct]
  split_ifs with h1 h2
  · rw [dayOf_add_86400]; omega
  · rw [dayOf_sub_86400]; omega
  · omega

/-! ## Claim C10: the crossing time stays on the observation date -/

/-- C10 (amended).  For every `now` and every parsable RA/Dec pair whose
parsed RA lies in the sexagesimal range `[0, 24)` hours,
`calculate_meridian_time` succeeds, the LST-minus-RA offset is folded
into `[-12h, +12h]`, and if the shifted time lands on the previous or
next calendar day it is moved by exactly 24 hours back onto `now`'s own
date: the returned crossing time is on `now`'s calendar date.  (For RA
strings outside `[0, 24)` — which `_parse_ra` accepts — the single fold
is not enough and the result can land on an adjacent day; see
`C10_counterexample`.) -/
theorem C10_meridian_same_date (longitude : ℚ) (ra dec : String) (t r : ℚ)
    (hra : parse_ra ra = some r) (hdec : (parse_dec dec).isSome)
    (h0 : 0 ≤ r) (h24 : r < 24) :
    ∃ m, calculate_meridian_time longitude ra dec t = some m ∧ dayOf m = dayOf t ∧
      ∃ dl : ℚ, -12 ≤ dl ∧ dl ≤ 12 ∧
        (m = t + dl * 3600 ∨ m = t + dl * 3600 + 86400 ∨ m = t + dl * 3600 - 86400) := by
  rcases Option.isSome_iff_exists.mp hdec with ⟨dv, hdv⟩
  rw [calculate_meridian_time, hra, hdv]
  have hl0 := calculate_lst_nonneg longitude t
  have hl24 := calculate_lst_lt_24 longitude t
  obtain ⟨hdlo, hdhi⟩ := fold_delta_mem (r - calculate_lst longitude t)
    (by linarith) (by linarith)
  set dl := fold_delta (r - calculate_lst longitude t) with hdl
  set m0 := t + dl * 3600 with hm0
  obtain ⟨hnear1, hnear2⟩ := dayOf_near t m0 (by rw [hm0]; linarith) (by rw [hm0]; linarith)
  refine ⟨date_correct t m0, rfl, date_correct_day t m0 hnear1 hnear2, dl, hdlo, hdhi, ?_⟩
  rw [date_correct]
  split_ifs with h1 h2
  · right; left; rfl
  · right; right; rfl
  · left; rfl

/-! ## Concrete time evaluations -/

lemma dayOf_concrete (D s : ℕ) (hs : s < 86400) : dayOf ((D : ℚ) * 86400 + s) = D := by
  rw [dayOf, Int.floor_eq_iff]
  constructor
  · rw [le_div_iff (by norm_num : (0 : ℚ) < 86400)]
    push_cast
    have : (0 : ℚ) ≤ s := by positivity
    linarith
  · rw [div_lt_iff (by norm_num : (0 : ℚ) < 86400)]
    push_cast
    have : (s : ℚ) < 86400 := by exact_mod_cast hs
    linarith

lemma natSec_concrete (D s : ℕ) (hs : s < 86400) : natSec ((D : ℚ) * 86400 + s) = s := by
  rw [natSec, secOfDay, dayOf_concrete D s hs]
  rw [show (D : ℚ) * 86400 + s - 86400 * ((D : ℤ) : ℚ) = (s : ℚ) by push_cast; ring]
  rw [Int.floor_natCast]
  exact Int.toNat_natCast s

lemma civil_epoch : civil_from_days 730119 = (2000, 1, 1) := by decide

lemma civil_evening : civil_from_days 730120 = (2000, 1, 2) := by decide

lemma jd_epoch : calculate_julian_day ((730119 : ℚ) * 86400 + 0) = 2451545 := by
  have hd := dayOf_concrete 730119 0 (by norm_num)
  have hn := natSec_concrete 730119 0 (by norm_num)
  push_cast at hd hn
  simp only [calculate_julian_day, hourOf, minuteOf, secondOf]
  rw [hd, hn]
  rw [show ((730119 : ℤ)).toNat = 730119 from rfl]
  rw [civil_epoch]
  norm_num

lemma qmod24_of_mem (x : ℚ) (h1 : 0 ≤ x) (h2 : x < 24) : qmod24 x = x := by
  rw [qmod24]
  rw [show ⌊x / 24⌋ = 0 from by
    rw [Int.floor_eq_zero_iff, Set.mem_Ico]
    constructor
    · positivity
    · exact (div_lt_one (by norm_num)).mpr (by linarith)]
  ring

lemma jd_evening : calculate_julian_day ((730120 : ℚ) * 86400 + 71388) = 2451546.82625 := by
  have hd := dayOf_concrete 730120 71388 (by norm_num)
  have hn := natSec_concrete 730120 71388 (by norm_num)
  push_cast at hd hn
  simp only [calculate_julian_day, hourOf, minuteOf, secondOf]
  rw [hd, hn]
  rw [show ((730120 : ℤ)).toNat = 730120 from rfl]
  rw [civil_evening]
  norm_num

lemma lst_epoch : calculate_lst 116.4 ((730119 : ℚ) * 86400 + 0) = 14.457374558 := by
  simp only [calculate_lst]
  rw [jd_epoch]
  rw [show (2451545 - 2451545.0 : ℚ) / 36525.0 = 0 by norm_num]
  rw [show (6.697374558 + 2400.051336 * 0 + 0.000025862 * 0 * 0 : ℚ) = 6.697374558 by norm_num]
  rw [qmod24_of_mem 6.697374558 (by norm_num) (by norm_num)]
  rw [show (6.697374558 + 116.4 / 15.0 : ℚ) = 14.457374558 by norm_num]
  rw [qmod24_of_mem 14.457374558 (by norm_num) (by norm_num)]

lemma lst_evening : calculate_lst 116.4 ((730120 : ℚ) * 86400 + 71388) =
    14.577377124800064655 := by
  simp only [calculate_lst]
  rw [jd_evening]
  rw [show (2451546.82625 - 2451545.0 : ℚ) / 36525.0 = 0.00005 by norm_num]
  rw [show (6.697374558 + 2400.051336 * 0.00005 + 0.000025862 * 0.00005 * 0.00005 : ℚ) =
    6.817377124800064655 by norm_num]
  rw [qmod24_of_mem 6.817377124800064655 (by norm_num) (by norm_num)]
  rw [show (6.817377124800064655 + 116.4 / 15.0 : ℚ) = 14.577377124800064655 by norm_num]
  rw [qmod24_of_mem 14.577377124800064655 (by norm_num) (by norm_num)]

lemma calculate_meridian_time_eq (longitude : ℚ) (ra dec : String) (t r dv : ℚ)
    (hra : parse_ra ra = some r) (hdec : parse_dec dec = some dv) :
    calculate_meridian_time longitude ra dec t =
      some (date_correct t (t + fold_delta (r - calculate_lst longitude t) * 3600)) := by
  rw [calculate_meridian_time, hra, hdec]

lemma dayOf_eq_of_bounds (t : ℚ) (D : ℤ) (h1 : (D : ℚ) * 86400 ≤ t)
    (h2 : t < ((D : ℚ) + 1) * 86400) : dayOf t = D := by
  rw [dayOf, Int.floor_eq_iff]
  constructor
  · rw [le_div_iff (by norm_num : (0 : ℚ) < 86400)]
    linarith
  · rw [div_lt_iff (by norm_num : (0 : ℚ) < 86400)]
    linarith

/-- C10 counterexample.  The claim quantifies over every parsable
RA/Dec pair, but `_parse_ra` accepts hour fields outside `[0, 24)`: for
the parsable RA "100:00:00" at local midnight 2000-01-01 the folded
offset is still over 61 hours, the single one-day correction is not
enough, and the returned crossing time falls on 2000-01-02 — an
adjacent calendar day. -/
theorem C10_counterexample :
    parse_ra "100:00:00" = some 100 ∧
    calculate_meridian_time 116.4 "100:00:00" "+36:31:11.9" ((730119 : ℚ) * 86400 + 0) =
      some ((730119 : ℚ) * 86400 + 0 + (100 - 14.457374558 - 24) * 3600 - 86400) ∧
    dayOf ((730119 : ℚ) * 86400 + 0 + (100 - 14.457374558 - 24) * 3600 - 86400) = 730120 ∧
    dayOf ((730119 : ℚ) * 86400 + 0) = 730119 := by
  have hra : parse_ra "100:00:00" = some 100 := by
    rw [show parse_ra "100:00:00" =
      some ((1 : ℚ) * (100 : ℕ) + (1 : ℚ) * (0 : ℕ) / 60 + (1 : ℚ) * (0 : ℕ) / 3600) from rfl]
    norm_num
  have hdec : (parse_dec "+36:31:11.9").isSome = true := rfl
  obtain ⟨dv, hdv⟩ := Option.isSome_iff_exists.mp hdec
  have hday0 : dayOf ((730119 : ℚ) * 86400 + 0) = 730119 := by
    apply dayOf_eq_of_bounds <;> norm_num
  have hdaym0 : dayOf ((730119 : ℚ) * 86400 + 0 + (100 - 14.457374558 - 24) * 3600) =
      730121 := by
    apply dayOf_eq_of_bounds <;> norm_num
  have hdayf : dayOf ((730119 : ℚ) * 86400 + 0 + (100 - 14.457374558 - 24) * 3600 - 86400) =
      730120 := by
    apply dayOf_eq_of_bounds <;> norm_num
  refine ⟨hra, ?_, hdayf, hday0⟩
  rw [calculate_meridian_time_eq 116.4 _ _ _ 100 dv hra hdv]
  rw [lst_epoch]
  rw [show fold_delta (100 - 14.457374558) = 100 - 14.457374558 - 24 from by
    rw [fold_delta, if_pos (by norm_num)]]
  rw [date_correct, hdaym0, hday0]
  rw [if_neg (by omega), if_pos (by omega)]

/-! ## Claim C7: meridian window classification -/

lemma qmod24_of_mem2 (x : ℚ) (h1 : 24 ≤ x) (h2 : x < 48) : qmod24 x = x - 24 := by
  rw [qmod24]
  rw [show ⌊x / 24⌋ = 1 from by
    rw [Int.floor_eq_iff]
    constructor
    · rw [le_div_iff (by norm_num : (0 : ℚ) < 24)]; push_cast; linarith
    · rw [div_lt_iff (by norm_num : (0 : ℚ) < 24)]; push_cast; linarith]
  push_cast
  ring

lemma fold_delta_cross_six (lst : ℚ) (h1 : 0 ≤ lst) (h2 : lst < 24) :
    fold_delta (qmod24 (lst + 6) - lst) = 6 := by
  rcases lt_or_le (lst + 6) 24 with h | h
  · rw [qmod24_of_mem (lst + 6) (by linarith) h]
    rw [show lst + 6 - lst = 6 by ring]
    rw [fold_delta, if_neg (by norm_num), if_neg (by norm_num)]
  · rw [qmod24_of_mem2 (lst + 6) h (by linarith)]
    rw [show lst + 6 - 24 - lst = -18 by ring]
    rw [fold_delta, if_neg (by norm_num), if_pos (by norm_num)]
    norm_num

lemma check_eq_of_window (longitude : ℚ) (sb rma sm : ℕ) (ra dec : String) (now : ℚ)
    (w : FlipWindow)
    (hw : calculate_meridian_flip_window longitude sb rma sm ra dec now = some w) :
    check_meridian_flip_needed longitude sb rma sm ra dec now =
      if now < w.stop_time then MeridianCheck.mk "before_window" false none
      else if w.stop_time ≤ now ∧ now < w.meridian_time then
        MeridianCheck.mk "stop_before_meridian" true (some w.meridian_time)
      else if w.meridian_time ≤ now ∧ now < w.resume_time then
        MeridianCheck.mk "wait_after_meridian" true (some w.resume_time)
      else MeridianCheck.mk "after_window" false none := by
  rw [check_meridian_flip_needed, hw]

lemma window_eq_of_meridian (longitude : ℚ) (sb rma sm : ℕ) (ra dec : String) (now m : ℚ)
    (hm : calculate_meridian_time longitude ra dec now = some m) :
    calculate_meridian_flip_window longitude sb rma sm ra dec now =
      some (FlipWindow.mk (m - ((sb : ℚ) + sm) * 60) m (m + ((rma : ℚ) + sm) * 60)) := by
  rw [calculate_meridian_flip_window, hm, Option.map_some']

/-- C7 (amended).  `check_meridian_flip_needed` classifies `now` against
the window `stopTime = meridianTime - (stopMinutesBefore + safetyMargin)`
minutes, `resumeTime = meridianTime + (resumeMinutesAfter +
safetyMargin)` minutes: `wait_needed = true` (with a `wait_until`
timestamp) exactly when `stopTime ≤ now < resumeTime`, in one of the
states `stop_before_meridian` / `wait_after_meridian`, and
`wait_needed = false` otherwise.  A target whose RA equals the local
sidereal time at `now` yields a wait state with `wait_needed = true`.  A
target crossing six hours from now yields `before_window` with
`wait_needed = false` provided `now + 6h` falls on `now`'s calendar
date (without that proviso the date fold makes it `after_window`; see
`C7_counterexample`). -/
theorem C7_meridian_window (longitude : ℚ) (sb rma sm : ℕ) (ra dec : String) (now : ℚ) :
    (∀ w, calculate_meridian_flip_window longitude sb rma sm ra dec now = some w →
      w.stop_time ≤ w.meridian_time →
      w.meridian_time ≤ w.resume_time →
      (((check_meridian_flip_needed longitude sb rma sm ra dec now).wait_needed = true) ↔
        (w.stop_time ≤ now ∧ now < w.resume_time)) ∧
      ((check_meridian_flip_needed longitude sb rma sm ra dec now).wait_needed = true →
        ((check_meridian_flip_needed longitude sb rma sm ra dec now).status =
            "stop_before_meridian" ∨
          (check_meridian_flip_needed longitude sb rma sm ra dec now).status =
            "wait_after_meridian") ∧
        (check_meridian_flip_needed longitude sb rma sm ra dec now).wait_until.isSome = true)) ∧
    (∀ r, parse_ra ra = some r → (parse_dec dec).isSome = true →
      r = calculate_lst longitude now → 1 ≤ rma + sm →
      check_meridian_flip_needed longitude sb rma sm ra dec now =
        MeridianCheck.mk "wait_after_meridian" true (some (now + ((rma : ℚ) + sm) * 60))) ∧
    (∀ r, parse_ra ra = some r → (parse_dec dec).isSome = true →
      r = qmod24 (calculate_lst longitude now + 6) → sb + sm < 360 →
      dayOf (now + 21600) = dayOf now →
      check_meridian_flip_needed longitude sb rma sm ra dec now =
        MeridianCheck.mk "before_window" false none) := by
  refine ⟨?_, ?_, ?_⟩
  · intro w hw hsm hmr
    rw [check_eq_of_window longitude sb rma sm ra dec now w hw]
    constructor
    · split_ifs with h1 h2 h3
      · constructor
        · intro h; exact absurd h (by decide)
        · intro h; exact absurd h.1 (not_le.mpr h1)
      · constructor
        · intro _; exact ⟨h2.1, by linarith [h2.2]⟩
        · intro _; trivial
      · constructor
        · intro _; exact ⟨by linarith [h3.1], h3.2⟩
        · intro _; trivial
      · constructor
        · intro h; exact absurd h (by decide)
        · intro h
          exfalso
          rcases not_and_or.mp h2 with hc | hc
          · exact hc (by linarith)
          · rcases not_and_or.mp h3 with hd | hd
            · exact hd (by linarith [not_lt.mp hc])
            · exact hd h.2
    · split_ifs with h1 h2 h3
      · intro h; exact absurd h (by decide)
      · intro _; exact ⟨Or.inl rfl, rfl⟩
      · intro _; exact ⟨Or.inr rfl, rfl⟩
      · intro h; exact absurd h (by decide)
  · intro r hra hdec hr hrs
    obtain ⟨dv, hdv⟩ := Option.isSome_iff_exists.mp hdec
    have hm : calculate_meridian_time longitude ra dec now = some now := by
      rw [calculate_meridian_time_eq longitude ra dec now r dv hra hdv]
      rw [hr, sub_self]
      rw [show fold_delta 0 = 0 from by
        rw [fold_delta, if_neg (by norm_num), if_neg (by norm_num)]]
      rw [show now + 0 * 3600 = now by ring]
      rw [date_correct, if_neg (by omega), if_neg (by omega)]
    rw [check_eq_of_window longitude sb rma sm ra dec now _
      (window_eq_of_meridian longitude sb rma sm ra dec now now hm)]
    have hc0 : (0 : ℚ) ≤ ((sb : ℚ) + sm) * 60 := by positivity
    have hc1 : (60 : ℚ) ≤ ((rma : ℚ) + sm) * 60 := by
      have : (1 : ℚ) ≤ (rma : ℚ) + sm := by exact_mod_cast hrs
      linarith
    rw [if_neg (by simp only; linarith), if_neg (by simp only; intro h; linarith [h.2]),
      if_pos (by simp only; constructor <;> linarith)]
  · intro r hra hdec hr hlt hday
    obtain ⟨dv, hdv⟩ := Option.isSome_iff_exists.mp hdec
    have hm : calculate_meridian_time longitude ra dec now = some (now + 21600) := by
      rw [calculate_meridian_time_eq longitude ra dec now r dv hra hdv]
      rw [hr]
      rw [fold_delta_cross_six (calculate_lst longitude now)
        (calculate_lst_nonneg longitude now) (calculate_lst_lt_24 longitude now)]
      rw [show now + 6 * 3600 = now + 21600 by ring]
      rw [date_correct, if_neg (by omega), if_neg (by omega)]
    rw [check_eq_of_window longitude sb rma sm ra dec now _
      (window_eq_of_meridian longitude sb rma sm ra dec now (now + 21600) hm)]
    have hc : ((sb : ℚ) + sm) * 60 < 21600 := by
      have : (sb : ℚ) + sm < 360 := by exact_mod_cast hlt
      linarith
    rw [if_pos (by simp only; linarith)]

/-- C7 counterexample.  For a target genuinely crossing six hours from
`now` (its RA equals LST + 6h exactly) in the evening of 2000-01-02,
`now + 6h` falls past midnight; `calculate_meridian_time` folds the
crossing back onto `now`'s calendar date, 18 hours in the past, and
`check_meridian_flip_needed` reports `after_window` — not the
`before_window` the claim asserts (`wait_needed` is false either way). -/
theorem C7_counterexample :
    parse_ra "20:34:38.557649280232758" =
      some (calculate_lst 116.4 ((730120 : ℚ) * 86400 + 71388) + 6) ∧
    check_meridian_flip_needed 116.4 10 10 2 "20:34:38.557649280232758" "+36:31:11.9"
      ((730120 : ℚ) * 86400 + 71388) = MeridianCheck.mk "after_window" false none := by
  have hra : parse_ra "20:34:38.557649280232758" = some (14.577377124800064655 + 6) := by
    rw [show parse_ra "20:34:38.557649280232758" =
      some ((1 : ℚ) * (20 : ℕ) + (1 : ℚ) * (34 : ℕ) / 60 +
        (1 : ℚ) * (((38 : ℕ) : ℚ) + ((557649280232758 : ℕ) : ℚ) / 10 ^ (15 : ℕ)) / 3600)
      from rfl]
    norm_num
  have hdec : (parse_dec "+36:31:11.9").isSome = true := rfl
  obtain ⟨dv, hdv⟩ := Option.isSome_iff_exists.mp hdec
  have hd0 : dayOf ((730120 : ℚ) * 86400 + 71388) = 730120 := by
    apply dayOf_eq_of_bounds <;> norm_num
  have hd1 : dayOf ((730120 : ℚ) * 86400 + 71388 + 6 * 3600) = 730121 := by
    apply dayOf_eq_of_bounds <;> norm_num
  have hm : calculate_meridian_time 116.4 "20:34:38.557649280232758" "+36:31:11.9"
      ((730120 : ℚ) * 86400 + 71388) = some ((730120 : ℚ) * 86400 + 71388 + 6 * 3600 - 86400) := by
    rw [calculate_meridian_time_eq 116.4 "20:34:38.557649280232758" "+36:31:11.9"
      ((730120 : ℚ) * 86400 + 71388) (14.577377124800064655 + 6) dv hra hdv]
    rw [lst_evening]
    rw [show (14.577377124800064655 + 6 - 14.577377124800064655 : ℚ) = 6 by norm_num]
    rw [show fold_delta 6 = 6 from by
      rw [fold_delta, if_neg (by norm_num), if_neg (by norm_num)]]
    rw [date_correct, hd1, hd0]
    rw [if_neg (by omega), if_pos (by omega)]
  refine ⟨by rw [hra, lst_evening], ?_⟩
  rw [check_eq_of_window 116.4 10 10 2 "20:34:38.557649280232758" "+36:31:11.9"
    ((730120 : ℚ) * 86400 + 71388) _
    (window_eq_of_meridian 116.4 10 10 2 "20:34:38.557649280232758" "+36:31:11.9"
      ((730120 : ℚ) * 86400 + 71388) _ hm)]
  rw [if_neg (by push_cast; norm_num), if_neg (by push_cast; norm_num),
    if_neg (by push_cast; norm_num)]

/-- Witness for the amended C7 at local midnight 2000-01-01: a target
whose RA equals the LST gets `wait_after_meridian` with
`wait_needed = true`, and a target crossing six hours later (still the
same calendar day) gets `before_window` with `wait_needed = false`. -/
theorem C7_meridian_window_witness :
    check_meridian_flip_needed 116.4 10 10 2 "14:27:26.5484088" "+36:31:11.9"
        ((730119 : ℚ) * 86400 + 0) =
      MeridianCheck.mk "wait_after_meridian" true
        (some ((730119 : ℚ) * 86400 + 0 + (((10 : ℕ) : ℚ) + ((2 : ℕ) : ℚ)) * 60)) ∧
    check_meridian_flip_needed 116.4 10 10 2 "20:27:26.5484088" "+36:31:11.9"
        ((730119 : ℚ) * 86400 + 0) = MeridianCheck.mk "before_window" false none := by
  constructor
  · refine (C7_meridian_window 116.4 10 10 2 "14:27:26.5484088" "+36:31:11.9"
      ((730119 : ℚ) * 86400 + 0)).2.1 14.457374558 ?_ rfl ?_ (by norm_num)
    · rw [show parse_ra "14:27:26.5484088" =
        some ((1 : ℚ) * (14 : ℕ) + (1 : ℚ) * (27 : ℕ) / 60 +
          (1 : ℚ) * (((26 : ℕ) : ℚ) + ((5484088 : ℕ) : ℚ) / 10 ^ (7 : ℕ)) / 3600) from rfl]
      norm_num
    · rw [lst_epoch]
  · refine (C7_meridian_window 116.4 10 10 2 "20:27:26.5484088" "+36:31:11.9"
      ((730119 : ℚ) * 86400 + 0)).2.2 (14.457374558 + 6) ?_ rfl ?_ (by norm_num) ?_
    · rw [show parse_ra "20:27:26.5484088" =
        some ((1 : ℚ) * (20 : ℕ) + (1 : ℚ) * (27 : ℕ) / 60 +
          (1 : ℚ) * (((26 : ℕ) : ℚ) + ((5484088 : ℕ) : ℚ) / 10 ^ (7 : ℕ)) / 3600) from rfl]
      norm_num
    · rw [lst_epoch]
      rw [qmod24_of_mem (14.457374558 + 6) (by norm_num) (by norm_num)]
    · rw [show ((730119 : ℚ) * 86400 + 0 + 21600) = (730119 : ℚ) * 86400 + 21600 by ring]
      rw [dayOf_eq_of_bounds ((730119 : ℚ) * 86400 + 21600) 730119 (by norm_num) (by norm_num)]
      rw [dayOf_eq_of_bounds ((730119 : ℚ) * 86400 + 0) 730119 (by norm_num) (by norm_num)]

/-- Witness for the amended C10 at a concrete in-range RA. -/
theorem C10_meridian_same_date_witness :
    ∃ m, calculate_meridian_time 116.4 "04:01:07.51" "+36:31:11.9"
        ((730119 : ℚ) * 86400 + 0) = some m ∧
      dayOf m = dayOf ((730119 : ℚ) * 86400 + 0) ∧
      ∃ dl : ℚ, -12 ≤ dl ∧ dl ≤ 12 ∧
        (m = (730119 : ℚ) * 86400 + 0 + dl * 3600 ∨
          m = (730119 : ℚ) * 86400 + 0 + dl * 3600 + 86400 ∨
          m = (730119 : ℚ) * 86400 + 0 + dl * 3600 - 86400) :=
  C10_meridian_same_date 116.4 "04:01:07.51" "+36:31:11.9" ((730119 : ℚ) * 86400 + 0)
    (4 + 1 / 60 + 751 / 100 / 3600)
    (by
      rw [show parse_ra "04:01:07.51" =
        some ((1 : ℚ) * (4 : ℕ) + (1 : ℚ) * (1 : ℕ) / 60 +
          (1 : ℚ) * (((7 : ℕ) : ℚ) + ((51 : ℕ) : ℚ) / 10 ^ (2 : ℕ)) / 3600) from rfl]
      norm_num)
    rfl (by norm_num) (by norm_num)

/-! ## Claim C3: the scheduler as a transition system

`TargetScheduler` (src/ACP/gui/scheduler.py) drives a queue of targets
from a background loop.  We model its observable state — the target
list, `current_target_index`, and the wall clock last seen by the loop —
and its two state-changing operations: `add_target` (called by the GUI
with a fresh target, whose dataclass status defaults to "等待中") and
one iteration of `_schedule_loop` (which may call `_switch_to_target`).
The outcome of `client.start_imaging_plan` in a switch is a
nondeterministic boolean parameter; a start failure, or an exception
raised while building the `ImagingPlan` (both of which happen after the
target was marked "执行中"), leaves the target "失败".  Each target
carries a ghost identity `tid`, assigned by a counter, so that a
target's history can be traced across the re-sorts done by
`add_target`; `name` and `plan_config` are carried by the real code but
never influence the transition logic, and are omitted from this state.
The wall clock is monotone across loop iterations
(`datetime.now()` never decreases). -/

structure SchedTarget where
  tid : Nat
  start_time : DT
  status : String
  deriving DecidableEq

/-- Sort key order of `add_target`, lifted to the modelled targets. -/
def st_le (a b : SchedTarget) : Prop := dt_le a.start_time b.start_time

instance : DecidableRel st_le := fun a b => instDecidableEqBool _ _

instance : IsTotal SchedTarget st_le :=
  ⟨fun a b => listLeLex_total (dtFields a.start_time) (dtFields b.start_time)⟩

instance : IsTrans SchedTarget st_le :=
  ⟨fun a b c => listLeLex_trans (dtFields a.start_time) (dtFields b.start_time)
    (dtFields c.start_time)⟩

/-- The statuses `_schedule_loop` skips over (line 85:
`if target.status in ["已完成", "已跳过"]: continue`). -/
def scan_terminal (st : String) : Bool := st = "已完成" || st = "已跳过"

/-- The scan of `_schedule_loop` (lines 83-93): index of the first
target that is not completed/skipped and whose start time has been
reached. -/
def findDue (now : DT) : List SchedTarget → Option Nat
  | [] => none
  | t :: ts =>
      if scan_terminal t.status = false ∧ dt_le t.start_time now then some 0
      else (findDue now ts).map (· + 1)

/-- Positional update of one list element (`self.targets[i].status = ...`). -/
def updAt : List SchedTarget → Nat → (SchedTarget → SchedTarget) → List SchedTarget
  | [], _, _ => []
  | t :: ts, 0, f => f t :: ts
  | t :: ts, n + 1, f => t :: updAt ts n f

def setStatus (st : String) (t : SchedTarget) : SchedTarget :=
  SchedTarget.mk t.tid t.start_time st

/-- The skip-marking loop of `_switch_to_target` (lines 124-126): every
waiting target strictly before the switched-to index becomes "已跳过". -/
def skipMark : List SchedTarget → Nat → List SchedTarget
  | l, 0 => l
  | [], _ + 1 => []
  | t :: ts, i + 1 =>
      (if t.status = "等待中" then setStatus "已跳过" t else t) :: skipMark ts i

/-- `_switch_to_target` (lines 108-158): complete the old current target
(after stopping it), skip-mark earlier waiting targets, mark the new
target running, and on a start failure or exception mark it failed. -/
def switch_to_target (ts : List SchedTarget) (cur : Option Nat) (i : Nat) (ok : Bool) :
    List SchedTarget × Option Nat :=
  let ts1 := match cur with
    | some c => updAt ts c (setStatus "已完成")
    | none => ts
  let ts2 := skipMark ts1 i
  let ts3 := updAt ts2 i (setStatus "执行中")
  (if ok then ts3 else updAt ts3 i (setStatus "失败"), some i)

/-- One iteration of `_schedule_loop` (lines 78-102) at wall-clock time
`now`: switch to the first due target if it is not already current;
with no due target, mark the current target completed. -/
def sched_tick (ts : List SchedTarget) (cur : Option Nat) (now : DT) (ok : Bool) :
    List SchedTarget × Option Nat :=
  match findDue now ts with
  | some i => if cur = some i then (ts, cur) else switch_to_target ts cur i ok
  | none =>
      match cur with
      | some c => (updAt ts c (setStatus "已完成"), none)
      | none => (ts, cur)

structure SchedState where
  targets : List SchedTarget
  current : Option Nat
  clock : DT
  nextId : Nat

/-- `add_target` with the ghost id counter: append a fresh Waiting
target and re-sort by start time (stable). -/
def sched_add (s : SchedState) (start : DT) : SchedState :=
  SchedState.mk
    (List.insertionSort st_le (s.targets ++ [SchedTarget.mk s.nextId start "等待中"]))
    s.current s.clock (s.nextId + 1)

inductive SchedStep : SchedState → SchedState → Prop where
  | add : ∀ s start, SchedStep s (sched_add s start)
  | tick : ∀ s now ok, dt_le s.clock now →
      SchedStep s
        (SchedState.mk (sched_tick s.targets s.current now ok).1
          (sched_tick s.targets s.current now ok).2 now s.nextId)

def SchedInit (s : SchedState) : Prop := s.targets = [] ∧ s.current = none

def SchedReachable (s : SchedState) : Prop :=
  ∃ s0, SchedInit s0 ∧ Relation.ReflTransGen SchedStep s0 s

/-- The forward status DAG of the claim:
Waiting → Running → (Completed | Failed), Waiting → Skipped. -/
def statusEdge (a b : String) : Prop :=
  (a = "等待中" ∧ b = "执行中") ∨
  (a = "执行中" ∧ (b = "已完成" ∨ b = "失败")) ∨
  (a = "等待中" ∧ b = "已跳过")

/-- A (possibly empty) path in the status DAG. -/
def statusPath : String → String → Prop := Relation.ReflTransGen statusEdge

/-- Statuses that actually occur in reachable scheduler states. -/
def statusOK (st : String) : Prop := st = "等待中" ∨ st = "执行中" ∨ st = "失败"

/-- The inductive invariant: statuses are Waiting/Running/Failed only,
ghost ids are below the counter and pairwise distinct, the list is
sorted by start time, and the current index (when set) is 0 with the
head target already due at the last observed clock; with no current
index every target is Waiting. -/
def SchedInv (s : SchedState) : Prop :=
  (∀ t ∈ s.targets, statusOK t.status ∧ t.tid < s.nextId) ∧
  (s.targets.map SchedTarget.tid).Nodup ∧
  List.Pairwise st_le s.targets ∧
  (match s.current with
   | none => ∀ t ∈ s.targets, t.status = "等待中"
   | some c => c = 0 ∧ ∃ t0 tl, s.targets = t0 :: tl ∧ dt_le t0.start_time s.clock)

lemma listLeLex_refl : ∀ xs : List Nat, listLeLex xs xs = true := by
  intro xs
  induction xs with
  | nil => rfl
  | cons a as ih =>
      rw [listLeLex, if_neg (by omega), if_neg (by omega)]
      exact ih

lemma st_le_refl (a : SchedTarget) : st_le a a := listLeLex_refl _

lemma statusOK_scan (st : String) (h : statusOK st) : scan_terminal st = false := by
  rcases h with h | h | h <;> subst h <;> decide

lemma skipMark_zero (l : List SchedTarget) : skipMark l 0 = l := by
  cases l <;> rfl

lemma updAt_get? (l : List SchedTarget) (i j : Nat) (f : SchedTarget → SchedTarget) :
    (updAt l i f).get? j = if j = i then (l.get? i).map f else l.get? j := by
  induction l generalizing i j with
  | nil =>
      rw [updAt]
      split <;> simp
  | cons t ts ih =>
      match i, j with
      | 0, 0 => rfl
      | 0, j + 1 => simp [updAt]
      | i + 1, 0 => simp [updAt]
      | i + 1, j + 1 =>
          rw [updAt]
          have := ih i j
          simp only [List.get?_cons_succ]
          rw [this]
          by_cases h : j = i
          · rw [if_pos h, if_pos (by omega)]
          · rw [if_neg h, if_neg (by omega)]

lemma updAt_map_tid (l : List SchedTarget) (i : Nat) (st : String) :
    (updAt l i (setStatus st)).map SchedTarget.tid = l.map SchedTarget.tid := by
  induction l generalizing i with
  | nil => rfl
  | cons t ts ih =>
      match i with
      | 0 => rfl
      | i + 1 =>
          rw [updAt, List.map_cons, List.map_cons, ih i]

lemma updAt_cons_zero (t : SchedTarget) (ts : List SchedTarget) (f : SchedTarget → SchedTarget) :
    updAt (t :: ts) 0 f = f t :: ts := rfl

lemma pairwise_setStatus_head (t : SchedTarget) (ts : List SchedTarget) (st : String)
    (h : List.Pairwise st_le (t :: ts)) :
    List.Pairwise st_le (setStatus st t :: ts) := by
  rw [List.pairwise_cons] at h ⊢
  exact ⟨fun u hu => h.1 u hu, h.2⟩

lemma findDue_cons_due (now : DT) (t : SchedTarget) (ts : List SchedTarget)
    (h1 : scan_terminal t.status = false) (h2 : dt_le t.start_time now) :
    findDue now (t :: ts) = some 0 := by
  rw [findDue, if_pos ⟨h1, h2⟩]

lemma findDue_none_of_not_due (now : DT) (l : List SchedTarget)
    (h : ∀ u ∈ l, ¬ dt_le u.start_time now) : findDue now l = none := by
  induction l with
  | nil => rfl
  | cons t ts ih =>
      rw [findDue]
      rw [if_neg (fun hc => h t (List.mem_cons_self t ts) hc.2)]
      rw [ih (fun u hu => h u (List.mem_cons_of_mem t hu))]
      rfl

lemma findDue_some_zero (now : DT) (l : List SchedTarget) (i : Nat)
    (hs : List.Pairwise st_le l) (hw : ∀ u ∈ l, u.status = "等待中")
    (hf : findDue now l = some i) :
    i = 0 ∧ ∃ t0 tl, l = t0 :: tl ∧ dt_le t0.start_time now := by
  cases l with
  | nil => exact absurd hf (by rw [findDue]; exact Option.noConfusion)
  | cons t ts =>
      by_cases hdue : dt_le t.start_time now
      · have := findDue_cons_due now t ts
          (by rw [hw t (List.mem_cons_self t ts)]; decide) hdue
        rw [this] at hf
        exact ⟨by injection hf with h; omega, t, ts, rfl, hdue⟩
      · exfalso
        have hnone : findDue now (t :: ts) = none := by
          apply findDue_none_of_not_due
          intro u hu hud
          rcases List.mem_cons.mp hu with h | h
          · exact hdue (h ▸ hud)
          · exact hdue (listLeLex_trans _ _ _
              (List.rel_of_pairwise_cons hs h) hud)
        rw [hnone] at hf
        exact Option.noConfusion hf

lemma sorted_head_le (t0 : SchedTarget) (tl : List SchedTarget) (a : SchedTarget)
    (hs : List.Pairwise st_le (t0 :: tl)) (ha : a ∈ t0 :: tl) : st_le t0 a := by
  rcases List.mem_cons.mp ha with h | h
  · exact h ▸ st_le_refl t0
  · exact List.rel_of_pairwise_cons hs h

lemma sched_inv_step (s s' : SchedState) (hinv : SchedInv s) (hstep : SchedStep s s') :
    SchedInv s' ∧
    (∀ t' ∈ s'.targets, (∃ t ∈ s.targets, t.tid = t'.tid ∧ statusPath t.status t'.status) ∨
      (t'.tid = s.nextId ∧ t'.status = "等待中")) ∧
    (∀ t ∈ s.targets, ∃ t' ∈ s'.targets, t'.tid = t.tid ∧ statusPath t.status t'.status) := by
  obtain ⟨hA, hN, hS, hC⟩ := hinv
  cases hstep with
  | add start =>
      have hperm := List.perm_insertionSort st_le
        (s.targets ++ [SchedTarget.mk s.nextId start "等待中"])
      have hmem : ∀ t', t' ∈ (sched_add s start).targets ↔
          t' ∈ s.targets ++ [SchedTarget.mk s.nextId start "等待中"] :=
        fun t' => hperm.mem_iff
      refine ⟨⟨?_, ?_, ?_, ?_⟩, ?_, ?_⟩
      · intro t ht
        rcases List.mem_append.mp ((hmem t).mp ht) with h | h
        · obtain ⟨h1, h2⟩ := hA t h
          refine ⟨h1, ?_⟩
          show t.tid < s.nextId + 1
          omega
        · rw [List.mem_singleton] at h
          subst h
          exact ⟨Or.inl rfl, Nat.lt_succ_self _⟩
      · have h1 : ((s.targets ++ [SchedTarget.mk s.nextId start "等待中"]).map
            SchedTarget.tid).Nodup := by
          rw [List.map_append, List.nodup_append]
          refine ⟨hN, List.nodup_singleton _, ?_⟩
          intro a ha hb
          rw [List.map_singleton, List.mem_singleton] at hb
          subst hb
          rw [List.mem_map] at ha
          obtain ⟨t, ht, htid⟩ := ha
          have h2 : t.tid = s.nextId := htid
          have := (hA t ht).2
          omega
        exact ((hperm.map SchedTarget.tid).nodup_iff).mpr h1
      · exact List.sorted_insertionSort st_le _
      · cases hcur : s.current with
        | none =>
            rw [hcur] at hC
            show match (sched_add s start).current with
              | none => ∀ t ∈ (sched_add s start).targets, t.status = "等待中"
              | some c => c = 0 ∧ ∃ t0 tl, (sched_add s start).targets = t0 :: tl ∧
                  dt_le t0.start_time (sched_add s start).clock
            have : (sched_add s start).current = none := hcur
            rw [this]
            intro t ht
            rcases List.mem_append.mp ((hmem t).mp ht) with h | h
            · exact hC t h
            · rw [List.mem_singleton] at h
              subst h
              rfl
        | some c =>
            rw [hcur] at hC
            obtain ⟨hc0, t0, tl, hl, hle⟩ := hC
            subst hc0
            show match (sched_add s start).current with
              | none => ∀ t ∈ (sched_add s start).targets, t.status = "等待中"
              | some c => c = 0 ∧ ∃ u0 ul, (sched_add s start).targets = u0 :: ul ∧
                  dt_le u0.start_time (sched_add s start).clock
            have hcur2 : (sched_add s start).current = some 0 := hcur
            rw [hcur2]
            obtain ⟨u0, ul, hu⟩ : ∃ u0 ul, (sched_add s start).targets = u0 :: ul := by
              cases hcase : (sched_add s start).targets with
              | nil =>
                  exfalso
                  have hlen := hperm.length_eq
                  rw [show (sched_add s start).targets =
                    List.insertionSort st_le
                      (s.targets ++ [SchedTarget.mk s.nextId start "等待中"]) from rfl] at hcase
                  rw [hcase] at hlen
                  rw [List.length_append] at hlen
                  simp at hlen
              | cons a l => exact ⟨a, l, rfl⟩
            refine ⟨rfl, u0, ul, hu, ?_⟩
            have ht0 : t0 ∈ u0 :: ul := by
              rw [← hu]
              exact (hmem t0).mpr (List.mem_append_left _ (hl ▸ List.mem_cons_self t0 tl))
            have hsorted : List.Pairwise st_le (u0 :: ul) := by
              rw [← hu]
              exact List.sorted_insertionSort st_le _
            exact listLeLex_trans _ _ _ (sorted_head_le u0 ul t0 hsorted ht0) hle
      · intro t' ht'
        rcases List.mem_append.mp ((hmem t').mp ht') with h | h
        · exact Or.inl ⟨t', h, rfl, Relation.ReflTransGen.refl⟩
        · rw [List.mem_singleton] at h
          subst h
          exact Or.inr ⟨rfl, rfl⟩
      · intro t ht
        exact ⟨t, (hmem t).mpr (List.mem_append_left _ ht), rfl, Relation.ReflTransGen.refl⟩
  | tick now ok hmono =>
      cases hcur : s.current with
      | some c =>
          rw [hcur] at hC
          obtain ⟨hc0, t0, tl, hl, hle⟩ := hC
          subst hc0
          have ht0mem : t0 ∈ s.targets := hl ▸ List.mem_cons_self t0 tl
          have hok := hA t0 ht0mem
          have hdue : dt_le t0.start_time now := listLeLex_trans _ _ _ hle hmono
          have hfd : findDue now s.targets = some 0 := by
            rw [hl]
            exact findDue_cons_due now t0 tl (statusOK_scan _ hok.1) hdue
          have htick : sched_tick s.targets (some 0) now ok = (s.targets, some 0) := by
            rw [sched_tick.eq_def, hfd]
            rfl
          refine ⟨⟨?_, ?_, ?_, ?_⟩, ?_, ?_⟩
          · intro t ht
            rw [htick] at ht
            exact hA t ht
          · rw [htick]
            exact hN
          · rw [htick]
            exact hS
          · show match (sched_tick s.targets (some 0) now ok).2 with
              | none => ∀ t ∈ (sched_tick s.targets (some 0) now ok).1, t.status = "等待中"
              | some c => c = 0 ∧ ∃ u0 ul,
                  (sched_tick s.targets (some 0) now ok).1 = u0 :: ul ∧
                  dt_le u0.start_time now
            rw [htick]
            exact ⟨rfl, t0, tl, hl, hdue⟩
          · intro t' ht'
            rw [htick] at ht'
            exact Or.inl ⟨t', ht', rfl, Relation.ReflTransGen.refl⟩
          · intro t ht
            refine ⟨t, ?_, rfl, Relation.ReflTransGen.refl⟩
            rw [htick]
            exact ht
      | none =>
          rw [hcur] at hC
          cases hfd : findDue now s.targets with
          | none =>
              have htick : sched_tick s.targets none now ok = (s.targets, none) := by
                rw [sched_tick.eq_def, hfd]
              refine ⟨⟨?_, ?_, ?_, ?_⟩, ?_, ?_⟩
              · intro t ht
                rw [htick] at ht
                exact hA t ht
              · rw [htick]
                exact hN
              · rw [htick]
                exact hS
              · show match (sched_tick s.targets none now ok).2 with
                  | none => ∀ t ∈ (sched_tick s.targets none now ok).1,
                      t.status = "等待中"
                  | some c => c = 0 ∧ ∃ u0 ul,
                      (sched_tick s.targets none now ok).1 = u0 :: ul ∧
                      dt_le u0.start_time now
                rw [htick]
                intro t ht
                exact hC t ht
              · intro t' ht'
                rw [htick] at ht'
                exact Or.inl ⟨t', ht', rfl, Relation.ReflTransGen.refl⟩
              · intro t ht
                refine ⟨t, ?_, rfl, Relation.ReflTransGen.refl⟩
                rw [htick]
                exact ht
          | some i =>
              obtain ⟨hi0, t0, tl, hl, hdue⟩ := findDue_some_zero now s.targets i hS hC hfd
              subst hi0
              have hw0 : t0.status = "等待中" := hC t0 (hl ▸ List.mem_cons_self t0 tl)
              have htick : sched_tick s.targets none now ok =
                  switch_to_target s.targets none 0 ok := by
                rw [sched_tick.eq_def, hfd]
                rfl
              have hswitch : switch_to_target s.targets none 0 ok =
                  ((if ok then setStatus "执行中" t0
                    else setStatus "失败" (setStatus "执行中" t0)) :: tl, some 0) := by
                simp only [switch_to_target]
                rw [skipMark_zero, hl, updAt_cons_zero]
                cases ok with
                | true => rw [if_pos rfl, if_pos rfl]
                | false =>
                    rw [if_neg (by simp), if_neg (by simp), updAt_cons_zero]
              set h0 : SchedTarget := if ok then setStatus "执行中" t0
                else setStatus "失败" (setStatus "执行中" t0) with hh0
              have hh0tid : h0.tid = t0.tid := by
                rw [hh0]
                cases ok <;> rfl
              have hh0start : h0.start_time = t0.start_time := by
                rw [hh0]
                cases ok <;> rfl
              have hh0status : statusOK h0.status ∧ statusPath t0.status h0.status := by
                rw [hh0, hw0]
                cases ok with
                | true =>
                    exact ⟨Or.inr (Or.inl rfl),
                      Relation.ReflTransGen.single (Or.inl ⟨rfl, rfl⟩)⟩
                | false =>
                    refine ⟨Or.inr (Or.inr rfl), ?_⟩
                    refine Relation.ReflTransGen.tail
                      (Relation.ReflTransGen.single (Or.inl ⟨rfl, rfl⟩)) ?_
                    exact Or.inr (Or.inl ⟨rfl, Or.inr rfl⟩)
              refine ⟨⟨?_, ?_, ?_, ?_⟩, ?_, ?_⟩
              · intro t ht
                rw [htick, hswitch] at ht
                rcases List.mem_cons.mp ht with h | h
                · subst h
                  exact ⟨hh0status.1, hh0tid ▸ (hA t0 (hl ▸ List.mem_cons_self t0 tl)).2⟩
                · exact hA t (hl ▸ List.mem_cons_of_mem t0 h)
              · show ((sched_tick s.targets none now ok).1.map SchedTarget.tid).Nodup
                rw [htick, hswitch]
                rw [List.map_cons, hh0tid]
                have h2 : (s.targets.map SchedTarget.tid).Nodup := hN
                rw [hl, List.map_cons] at h2
                exact h2
              · show List.Pairwise st_le (sched_tick s.targets none now ok).1
                rw [htick, hswitch]
                have hls : List.Pairwise st_le (t0 :: tl) := hl ▸ hS
                rw [List.pairwise_cons] at hls ⊢
                refine ⟨fun u hu => ?_, hls.2⟩
                show listLeLex (dtFields h0.start_time) (dtFields u.start_time) = true
                rw [hh0start]
                exact hls.1 u hu
              · show match (sched_tick s.targets none now ok).2 with
                  | none => ∀ t ∈ (sched_tick s.targets none now ok).1,
                      t.status = "等待中"
                  | some c => c = 0 ∧ ∃ u0 ul,
                      (sched_tick s.targets none now ok).1 = u0 :: ul ∧
                      dt_le u0.start_time now
                rw [htick, hswitch]
                refine ⟨rfl, h0, tl, rfl, ?_⟩
                show listLeLex (dtFields h0.start_time) (dtFields now) = true
                rw [hh0start]
                exact hdue
              · intro t' ht'
                rw [htick, hswitch] at ht'
                rcases List.mem_cons.mp ht' with h | h
                · subst h
                  exact Or.inl ⟨t0, hl ▸ List.mem_cons_self t0 tl, hh0tid.symm,
                    hh0status.2⟩
                · exact Or.inl ⟨t', hl ▸ List.mem_cons_of_mem t0 h, rfl,
                    Relation.ReflTransGen.refl⟩
              · intro t ht
                rw [hl] at ht
                rcases List.mem_cons.mp ht with h | h
                · subst h
                  refine ⟨h0, ?_, hh0tid, hh0status.2⟩
                  show h0 ∈ (sched_tick s.targets none now ok).1
                  rw [htick, hswitch]
                  exact List.mem_cons_self h0 tl
                · refine ⟨t, ?_, rfl, Relation.ReflTransGen.refl⟩
                  show t ∈ (sched_tick s.targets none now ok).1
                  rw [htick, hswitch]
                  exact List.mem_cons_of_mem h0 h

lemma sched_reachable_inv (s : SchedState) (h : SchedReachable s) : SchedInv s := by
  obtain ⟨s0, ⟨ht0, hc0⟩, hsteps⟩ := h
  induction hsteps with
  | refl =>
      refine ⟨?_, ?_, ?_, ?_⟩
      · intro t ht
        rw [ht0] at ht
        exact absurd ht (List.not_mem_nil t)
      · rw [ht0]
        exact List.nodup_nil
      · rw [ht0]
        exact List.Pairwise.nil
      · rw [hc0]
        exact fun t ht => absurd (ht0 ▸ ht) (List.not_mem_nil t)
  | tail hab hbc ih =>
      exact (sched_inv_step _ _ ih hbc).1

lemma statusEdge_src (a b : String) (h : statusEdge a b) :
    a = "等待中" ∨ a = "执行中" := by
  rcases h with ⟨h1, _⟩ | ⟨h1, _⟩ | ⟨h1, _⟩
  · exact Or.inl h1
  · exact Or.inr h1
  · exact Or.inl h1

lemma statusPath_terminal (a b : String)
    (hp : statusPath a b) (ha : a = "已完成" ∨ a = "失败" ∨ a = "已跳过") :
    b = a := by
  induction hp with
  | refl => rfl
  | tail p e ih =>
      rw [ih] at e
      rcases statusEdge_src _ _ e with h | h <;>
        rcases ha with h2 | h2 | h2 <;> (rw [h2] at h; exact absurd h (by decide))

/-- C3 (confirmed): across any scheduler step out of a reachable state,
every surviving target's status evolves along a path of the forward DAG
Waiting → Running → {Completed, Failed} | Waiting → Skipped (tracked by
ghost id), every target of the new state either descends from an old
one along such a path or is freshly added in Waiting, and a target in a
terminal status (Completed, Failed, Skipped) can never take a different
status later, since no DAG path leaves a terminal status. -/
theorem C3_status_transitions (s s' : SchedState)
    (hreach : SchedReachable s) (hstep : SchedStep s s') :
    ((∀ t ∈ s.targets, ∃ t' ∈ s'.targets,
        t'.tid = t.tid ∧ statusPath t.status t'.status) ∧
     (∀ t' ∈ s'.targets,
        (∃ t ∈ s.targets, t.tid = t'.tid ∧ statusPath t.status t'.status) ∨
        t'.status = "等待中")) ∧
    (∀ a b, statusPath a b →
      a = "已完成" ∨ a = "失败" ∨ a = "已跳过" → b = a) := by
  have hinv := sched_reachable_inv s hreach
  have h := sched_inv_step s s' hinv hstep
  refine ⟨⟨h.2.2, fun t' ht' => (h.2.1 t' ht').imp id And.right⟩, ?_⟩
  exact fun a b hp ha => statusPath_terminal a b hp ha

/-- Witness for C3: one `add` step out of the empty initial state,
instantiated at the single resulting target, which is fresh and
Waiting. -/
theorem C3_status_transitions_witness :
    (∃ t0 ∈ (SchedState.mk ([] : List SchedTarget) none
        (DT.mk 2024 1 1 20 0 0 0) 0).targets,
      t0.tid = (SchedTarget.mk 0 (DT.mk 2024 1 1 20 0 0 0) "等待中").tid ∧
      statusPath t0.status (SchedTarget.mk 0 (DT.mk 2024 1 1 20 0 0 0) "等待中").status) ∨
    (SchedTarget.mk 0 (DT.mk 2024 1 1 20 0 0 0) "等待中").status = "等待中" :=
  (C3_status_transitions
    (SchedState.mk [] none (DT.mk 2024 1 1 20 0 0 0) 0)
    (sched_add (SchedState.mk [] none (DT.mk 2024 1 1 20 0 0 0) 0)
      (DT.mk 2024 1 1 20 0 0 0))
    ⟨SchedState.mk [] none (DT.mk 2024 1 1 20 0 0 0) 0, ⟨rfl, rfl⟩,
      Relation.ReflTransGen.refl⟩
    (SchedStep.add _ _)).1.2
    (SchedTarget.mk 0 (DT.mk 2024 1 1 20 0 0 0) "等待中") (by decide)
